import Mathlib

/-!
# Verification of the `HeroCanvas` noise-field engine

Shallow embedding of the generative noise-field renderer from
`src/components/HeroCanvas.tsx`:

* the embedded 3D simplex-noise function `simplex3` (source lines 46-176),
  modelled exactly over `ℚ` (the source arithmetic is `+`, `-`, `*`,
  `Math.floor`, comparisons and table lookups, so rationals model the
  idealised real-number semantics of the code);
* the per-frame dot-grid renderer from the `animate` closure
  (source lines 249-346), modelled as a pure function from
  (width, height, time, mouse position) to the list of per-cell traces and
  paint operations.  The only irrational quantity is the
  cell-to-mouse distance `Math.sqrt(dx*dx + dy*dy)`, modelled with
  `Real.sqrt`.

All theorems about the claims of the specification are at the end of the
file; the middle is a certified global bound `|simplex3 x y z| ≤ 12/5`,
obtained from a pairwise analysis of the four simplex-corner
contributions.
-/

namespace HeroCanvas

set_option maxRecDepth 100000

/-! ## The gradient table (source lines 47-51) -/

/-- `GRAD3` — the 12 gradient direction vectors. -/
def GRAD3 : List (ℤ × ℤ × ℤ) :=
  [(1, 1, 0), (-1, 1, 0), (1, -1, 0), (-1, -1, 0),
   (1, 0, 1), (-1, 0, 1), (1, 0, -1), (-1, 0, -1),
   (0, 1, 1), (0, -1, 1), (0, 1, -1), (0, -1, -1)]

/-- Lookup into `GRAD3` (out-of-range returns the zero vector). -/
def gradAt (i : ℕ) : ℤ × ℤ × ℤ := GRAD3.getD i (0, 0, 0)

/-! ## The permutation table (source lines 54-75) -/

/-- The 256 base entries of the permutation table `p`. -/
def permBase : List ℕ :=
  [151, 160, 137, 91, 90, 15, 131, 13, 201, 95, 96, 53, 194, 233, 7, 225,
   140, 36, 103, 30, 69, 142, 8, 99, 37, 240, 21, 10, 23, 190, 6, 148,
   247, 120, 234, 75, 0, 26, 197, 62, 94, 252, 219, 203, 117, 35, 11, 32,
   57, 177, 33, 88, 237, 149, 56, 87, 174, 20, 125, 136, 171, 168, 68, 175,
   74, 165, 71, 134, 139, 48, 27, 166, 77, 146, 158, 231, 83, 111, 229, 122,
   60, 211, 133, 230, 220, 105, 92, 41, 55, 46, 245, 40, 244, 102, 143, 54,
   65, 25, 63, 161, 1, 216, 80, 73, 209, 76, 132, 187, 208, 89, 18, 169,
   200, 196, 135, 130, 116, 188, 159, 86, 164, 100, 109, 198, 173, 186, 3, 64,
   52, 217, 226, 250, 124, 123, 5, 202, 38, 147, 118, 126, 255, 82, 85, 212,
   207, 206, 59, 227, 47, 16, 58, 17, 182, 189, 28, 42, 223, 183, 170, 213,
   119, 248, 152, 2, 44, 154, 163, 70, 221, 153, 101, 155, 167, 43, 172, 9,
   129, 22, 39, 253, 19, 98, 108, 110, 79, 113, 224, 232, 178, 185, 112, 104,
   218, 246, 97, 228, 251, 34, 242, 193, 238, 210, 144, 12, 191, 179, 162, 241,
   81, 51, 145, 235, 249, 14, 239, 107, 49, 192, 214, 31, 181, 199, 106, 157,
   184, 84, 204, 176, 115, 121, 50, 45, 127, 4, 150, 254, 138, 236, 205, 93,
   222, 114, 67, 29, 24, 72, 243, 141, 128, 195, 78, 66, 215, 61, 156, 180]

/-- `PERM` — the doubled permutation table (`[...p, ...p]`, length 512). -/
def PERM : List ℕ := permBase ++ permBase

/-- Lookup into `PERM` (out-of-range returns 0; the in-bounds theorem
below shows the default is never used by `simplex3`). -/
def permAt (i : ℕ) : ℕ := PERM.getD i 0

/-! ## `dot3` (source lines 81-83) -/

/-- `dot3` — dot product of a gradient vector and a `(dx, dy, dz)` offset. -/
def dot3 (g : ℤ × ℤ × ℤ) (x y z : ℚ) : ℚ :=
  (g.1 : ℚ) * x + (g.2.1 : ℚ) * y + (g.2.2 : ℚ) * z

/-! ## `simplex3` (source lines 90-176)

The straight-line body of `simplex3` is decomposed into one named
definition per intermediate quantity of the source, each a function of the
input coordinates `(xin, yin, zin)`.  Names follow the source variables.
-/

/-- Skew factor `s = (xin + yin + zin) * F3` with `F3 = 1/3` (line 96). -/
def skewS (x y z : ℚ) : ℚ := (x + y + z) * (1 / 3)

/-- `i = Math.floor(xin + s)` (line 97). -/
def latI (x y z : ℚ) : ℤ := ⌊x + skewS x y z⌋

/-- `j = Math.floor(yin + s)` (line 98). -/
def latJ (x y z : ℚ) : ℤ := ⌊y + skewS x y z⌋

/-- `k = Math.floor(zin + s)` (line 99). -/
def latK (x y z : ℚ) : ℤ := ⌊z + skewS x y z⌋

/-- Unskew factor `t = (i + j + k) * G3` with `G3 = 1/6` (line 101). -/
def unskewT (x y z : ℚ) : ℚ := ((latI x y z + latJ x y z + latK x y z : ℤ) : ℚ) * (1 / 6)

/-- `x0 = xin - (i - t)` — distance from the cell origin (lines 104-111). -/
def x0q (x y z : ℚ) : ℚ := x - ((latI x y z : ℚ) - unskewT x y z)

/-- `y0 = yin - (j - t)` (lines 104-111). -/
def y0q (x y z : ℚ) : ℚ := y - ((latJ x y z : ℚ) - unskewT x y z)

/-- `z0 = zin - (k - t)` (lines 104-111). -/
def z0q (x y z : ℚ) : ℚ := z - ((latK x y z : ℚ) - unskewT x y z)

/-- The simplex-ordering cascade (lines 117-125): returns
`((i1,j1,k1), (i2,j2,k2))`.  `x0 >= y0` is written `y0 ≤ x0`, etc. -/
def simplexOrder (a b c : ℚ) : (ℕ × ℕ × ℕ) × (ℕ × ℕ × ℕ) :=
  if b ≤ a then
    if c ≤ b then ((1, 0, 0), (1, 1, 0))
    else if c ≤ a then ((1, 0, 0), (1, 0, 1))
    else ((0, 0, 1), (1, 0, 1))
  else
    if b < c then ((0, 0, 1), (0, 1, 1))
    else if a < c then ((0, 1, 0), (0, 1, 1))
    else ((0, 1, 0), (1, 1, 0))

/-- The branch selected on the offsets `(x0, y0, z0)`. -/
def branch (x y z : ℚ) : (ℕ × ℕ × ℕ) × (ℕ × ℕ × ℕ) :=
  simplexOrder (x0q x y z) (y0q x y z) (z0q x y z)

/-- `x1 = x0 - i1 + G3` (line 128). -/
def x1q (x y z : ℚ) : ℚ := x0q x y z - ((branch x y z).1.1 : ℚ) + 1 / 6

/-- `y1 = y0 - j1 + G3` (line 129). -/
def y1q (x y z : ℚ) : ℚ := y0q x y z - ((branch x y z).1.2.1 : ℚ) + 1 / 6

/-- `z1 = z0 - k1 + G3` (line 130). -/
def z1q (x y z : ℚ) : ℚ := z0q x y z - ((branch x y z).1.2.2 : ℚ) + 1 / 6

/-- `x2 = x0 - i2 + 2*G3` (line 131). -/
def x2q (x y z : ℚ) : ℚ := x0q x y z - ((branch x y z).2.1 : ℚ) + 2 * (1 / 6)

/-- `y2 = y0 - j2 + 2*G3` (line 132). -/
def y2q (x y z : ℚ) : ℚ := y0q x y z - ((branch x y z).2.2.1 : ℚ) + 2 * (1 / 6)

/-- `z2 = z0 - k2 + 2*G3` (line 133). -/
def z2q (x y z : ℚ) : ℚ := z0q x y z - ((branch x y z).2.2.2 : ℚ) + 2 * (1 / 6)

/-- `x3 = x0 - 1 + 3*G3` (line 134). -/
def x3q (x y z : ℚ) : ℚ := x0q x y z - 1 + 3 * (1 / 6)

/-- `y3 = y0 - 1 + 3*G3` (line 135). -/
def y3q (x y z : ℚ) : ℚ := y0q x y z - 1 + 3 * (1 / 6)

/-- `z3 = z0 - 1 + 3*G3` (line 136). -/
def z3q (x y z : ℚ) : ℚ := z0q x y z - 1 + 3 * (1 / 6)

/-- `ii = i & 255` (line 139).  For any (possibly negative) integer the
JavaScript masking agrees with the Euclidean remainder mod 256. -/
def iiq (x y z : ℚ) : ℕ := ((latI x y z) % 256).toNat

/-- `jj = j & 255` (line 140). -/
def jjq (x y z : ℚ) : ℕ := ((latJ x y z) % 256).toNat

/-- `kk = k & 255` (line 141). -/
def kkq (x y z : ℚ) : ℕ := ((latK x y z) % 256).toNat

/-- `gi0 = PERM[ii + PERM[jj + PERM[kk]]] % 12` (line 149). -/
def gi0q (x y z : ℚ) : ℕ :=
  permAt (iiq x y z + permAt (jjq x y z + permAt (kkq x y z))) % 12

/-- `gi1 = PERM[ii + i1 + PERM[jj + j1 + PERM[kk + k1]]] % 12` (line 156). -/
def gi1q (x y z : ℚ) : ℕ :=
  permAt (iiq x y z + (branch x y z).1.1 +
    permAt (jjq x y z + (branch x y z).1.2.1 +
      permAt (kkq x y z + (branch x y z).1.2.2))) % 12

/-- `gi2 = PERM[ii + i2 + PERM[jj + j2 + PERM[kk + k2]]] % 12` (line 163). -/
def gi2q (x y z : ℚ) : ℕ :=
  permAt (iiq x y z + (branch x y z).2.1 +
    permAt (jjq x y z + (branch x y z).2.2.1 +
      permAt (kkq x y z + (branch x y z).2.2.2))) % 12

/-- `gi3 = PERM[ii + 1 + PERM[jj + 1 + PERM[kk + 1]]] % 12` (line 170). -/
def gi3q (x y z : ℚ) : ℕ :=
  permAt (iiq x y z + 1 + permAt (jjq x y z + 1 + permAt (kkq x y z + 1))) % 12

/-- One corner contribution (lines 146-151 and analogues):
`t = 0.6 - dx² - dy² - dz²`; if `t ≥ 0` the contribution is
`(t*t)*(t*t) * dot3(GRAD3[gi], dx, dy, dz)`, else `0`. -/
def corner (gi : ℕ) (dx dy dz : ℚ) : ℚ :=
  let t := 3 / 5 - dx * dx - dy * dy - dz * dz
  if 0 ≤ t then ((t * t) * (t * t)) * dot3 (gradAt gi) dx dy dz else 0

/-- Corner contribution `n0` (lines 146-151). -/
def n0q (x y z : ℚ) : ℚ := corner (gi0q x y z) (x0q x y z) (y0q x y z) (z0q x y z)

/-- Corner contribution `n1` (lines 153-158). -/
def n1q (x y z : ℚ) : ℚ := corner (gi1q x y z) (x1q x y z) (y1q x y z) (z1q x y z)

/-- Corner contribution `n2` (lines 160-165). -/
def n2q (x y z : ℚ) : ℚ := corner (gi2q x y z) (x2q x y z) (y2q x y z) (z2q x y z)

/-- Corner contribution `n3` (lines 167-172). -/
def n3q (x y z : ℚ) : ℚ := corner (gi3q x y z) (x3q x y z) (y3q x y z) (z3q x y z)

/-- `simplex3` — 3D simplex noise at `(xin, yin, zin)`;
`return 32.0 * (n0 + n1 + n2 + n3)` (line 175). -/
def simplex3 (x y z : ℚ) : ℚ :=
  32 * (n0q x y z + n1q x y z + n2q x y z + n3q x y z)

/-! ## A certified global bound for `simplex3`

We prove `|simplex3 x y z| ≤ 12/5` for all rational inputs.  The key
facts: each corner contribution has absolute value at most
`F(r) = (3/5 - r²)₊⁴ · √2 · r` where `r` is the distance from the query
point to that corner, and the corner pairs `(0,1)` and `(2,3)` are always
`√3/2` apart, so each pair contributes at most `3/80`; hence the total is
at most `32 · (3/80 + 3/80) = 12/5`. -/

/-- The envelope function bounding one corner contribution in terms of the
distance `r` to the corner. -/
noncomputable def Fenv (r : ℝ) : ℝ := max (3 / 5 - r ^ 2) 0 ^ 4 * (Real.sqrt 2 * r)

theorem sqrt2_le : Real.sqrt 2 ≤ 14142136 / 10 ^ 7 := by
  rw [show (2:ℝ) = (14142136 / 10 ^ 7 : ℝ) ^ 2 - 10642496/10 ^ 14 by norm_num]
  calc Real.sqrt ((14142136 / 10 ^ 7 : ℝ) ^ 2 - 10642496/10 ^ 14)
      ≤ Real.sqrt ((14142136 / 10 ^ 7 : ℝ) ^ 2) := by
        apply Real.sqrt_le_sqrt; norm_num
    _ = 14142136 / 10 ^ 7 := by
        rw [Real.sqrt_sq (by norm_num)]

theorem sqrt3_lb : 17320508 / 10 ^ 7 ≤ Real.sqrt 3 := by
  have h : ((17320508 / 10 ^ 7 : ℝ)) ^ 2 ≤ 3 := by norm_num
  calc (17320508 / 10 ^ 7 : ℝ)
      = Real.sqrt ((17320508 / 10 ^ 7 : ℝ) ^ 2) := by rw [Real.sqrt_sq (by norm_num)]
    _ ≤ Real.sqrt 3 := Real.sqrt_le_sqrt h

theorem sqrt3_ub : Real.sqrt 3 ≤ 173205081 / 10 ^ 8 := by
  have h : (3:ℝ) ≤ ((173205081 / 10 ^ 8 : ℝ)) ^ 2 := by norm_num
  calc Real.sqrt 3 ≤ Real.sqrt ((173205081 / 10 ^ 8 : ℝ) ^ 2) := Real.sqrt_le_sqrt h
    _ = 173205081 / 10 ^ 8 := by rw [Real.sqrt_sq (by norm_num)]

theorem Fenv_nonneg {r : ℝ} (hr : 0 ≤ r) : 0 ≤ Fenv r := by
  unfold Fenv
  have h1 : (0:ℝ) ≤ max (3 / 5 - r ^ 2) 0 := le_max_right _ _
  positivity

theorem Fenv_tail {r : ℝ} (hr : 3 / 5 ≤ r ^ 2) : Fenv r = 0 := by
  unfold Fenv
  rw [max_eq_right (by linarith), zero_pow (by norm_num), zero_mul]

/-- Componentwise box bound for `Fenv` on an interval `[a, b]`. -/
theorem Fenv_box {a b r : ℝ} (h0 : 0 ≤ a) (h1 : a ≤ r) (h2 : r ≤ b)
    (ha : a ^ 2 ≤ 3 / 5) :
    Fenv r ≤ (3 / 5 - a ^ 2) ^ 4 * (14142136 / 10 ^ 7 * b) := by
  unfold Fenv
  have hr0 : 0 ≤ r := le_trans h0 h1
  have hr2 : a ^ 2 ≤ r ^ 2 := by nlinarith
  have hmax : max (3 / 5 - r ^ 2) 0 ≤ 3 / 5 - a ^ 2 :=
    max_le (by linarith) (by linarith)
  have hmax0 : (0:ℝ) ≤ max (3 / 5 - r ^ 2) 0 := le_max_right _ _
  have hpow : max (3 / 5 - r ^ 2) 0 ^ 4 ≤ (3 / 5 - a ^ 2) ^ 4 :=
    pow_le_pow_left₀ hmax0 hmax 4
  have hmul : Real.sqrt 2 * r ≤ 14142136 / 10 ^ 7 * b :=
    mul_le_mul sqrt2_le h2 hr0 (by norm_num)
  have hs0 : 0 ≤ Real.sqrt 2 * r := mul_nonneg (Real.sqrt_nonneg 2) hr0
  exact mul_le_mul hpow hmul hs0 (by positivity)

/-- `Fenv` is decreasing past the peak `1/√15 < 0.2582`. -/
theorem Fenv_dec {r r' : ℝ} (hr : 2582 / 10 ^ 4 ≤ r) (hrr : r ≤ r') :
    Fenv r' ≤ Fenv r := by
  have hr0 : (0:ℝ) ≤ r := by linarith [hr]
  by_cases hc : 3 / 5 ≤ r' ^ 2
  · rw [Fenv_tail hc]; exact Fenv_nonneg hr0
  · push_neg at hc
    have hrr2 : r ^ 2 ≤ r' ^ 2 := by nlinarith
    have hr2 : r ^ 2 < 3 / 5 := lt_of_le_of_lt hrr2 hc
    unfold Fenv
    rw [max_eq_left (by linarith), max_eq_left (by linarith)]
    obtain ⟨t, ht⟩ : ∃ t : ℝ, t = 3 / 5 - r ^ 2 := ⟨_, rfl⟩
    obtain ⟨t', ht'⟩ : ∃ t' : ℝ, t' = 3 / 5 - r' ^ 2 := ⟨_, rfl⟩
    rw [← ht, ← ht']
    have h115 : 1 / 15 ≤ r ^ 2 := by nlinarith
    have htt : t' ≤ t := by rw [ht, ht']; linarith
    have ht'0 : 0 ≤ t' := by rw [ht']; linarith
    have ht0 : 0 ≤ t := le_trans ht'0 htt
    have hb : 0 ≤ r * (r + r') * (t ^ 3 + t ^ 2 * t' + t * t' ^ 2 + t' ^ 3) - t' ^ 4 := by
      have e1 : t' ^ 3 ≤ t ^ 3 := pow_le_pow_left₀ ht'0 htt 3
      have e2 : t' ^ 3 ≤ t ^ 2 * t' := by
        nlinarith [mul_nonneg (mul_nonneg ht'0 (sub_nonneg.mpr htt))
          (show (0:ℝ) ≤ t + t' by linarith)]
      have e3 : t' ^ 3 ≤ t * t' ^ 2 := by
        nlinarith [mul_nonneg (sq_nonneg t') (sub_nonneg.mpr htt)]
      have hsig : 4 * t' ^ 3 ≤ t ^ 3 + t ^ 2 * t' + t * t' ^ 2 + t' ^ 3 := by linarith
      have hrp : 2 / 15 ≤ r * (r + r') := by
        nlinarith [mul_le_mul_of_nonneg_left hrr hr0]
      have s1 : r * (r + r') * (4 * t' ^ 3) ≤
          r * (r + r') * (t ^ 3 + t ^ 2 * t' + t * t' ^ 2 + t' ^ 3) :=
        mul_le_mul_of_nonneg_left hsig (by linarith)
      have s2 : 2 / 15 * (4 * t' ^ 3) ≤ r * (r + r') * (4 * t' ^ 3) :=
        mul_le_mul_of_nonneg_right hrp (by positivity)
      have ht815 : t ≤ 8 / 15 := by rw [ht]; linarith
      have s3 : t' ^ 4 ≤ 8 / 15 * t' ^ 3 := by
        nlinarith [mul_nonneg (pow_nonneg ht'0 3) (show (0:ℝ) ≤ 8 / 15 - t' by linarith)]
      linarith
    have key : t ^ 4 * r - t' ^ 4 * r' =
        (r' - r) * (r * (r + r') * (t ^ 3 + t ^ 2 * t' + t * t' ^ 2 + t' ^ 3) - t' ^ 4) := by
      rw [ht, ht']; ring
    have hcore : t' ^ 4 * r' ≤ t ^ 4 * r := by
      have := mul_nonneg (by linarith : (0:ℝ) ≤ r' - r) hb
      linarith [key]
    calc t' ^ 4 * (Real.sqrt 2 * r') = Real.sqrt 2 * (t' ^ 4 * r') := by ring
      _ ≤ Real.sqrt 2 * (t ^ 4 * r) :=
          mul_le_mul_of_nonneg_left hcore (Real.sqrt_nonneg 2)
      _ = t ^ 4 * (Real.sqrt 2 * r) := by ring

/-- `Fenv` at the half-way point `√3/4` is at most `3/160`. -/
theorem Fenv_cap : Fenv (Real.sqrt 3 / 4) ≤ 3 / 160 := by
  have h3 : Real.sqrt 3 ^ 2 = 3 := Real.sq_sqrt (by norm_num)
  have hsq : (Real.sqrt 3 / 4) ^ 2 = 3 / 16 := by
    rw [div_pow, h3]; norm_num
  unfold Fenv
  rw [hsq, max_eq_left (by norm_num)]
  have h1 : Real.sqrt 2 * (Real.sqrt 3 / 4) ≤
      14142136 / 10 ^ 7 * (173205081 / 10 ^ 8 / 4) := by
    apply mul_le_mul sqrt2_le _ (by positivity) (by norm_num)
    have := sqrt3_ub; linarith
  calc (3 / 5 - 3 / 16 : ℝ) ^ 4 * (Real.sqrt 2 * (Real.sqrt 3 / 4))
      ≤ (3 / 5 - 3 / 16 : ℝ) ^ 4 * (14142136 / 10 ^ 7 * (173205081 / 10 ^ 8 / 4)) :=
        mul_le_mul_of_nonneg_left h1 (by norm_num)
    _ ≤ 3 / 160 := by norm_num

/-- Generic slice bound for `Fenv r + Fenv (√3/2 - r)` on `r ∈ [a, b]`
when the second term is not identically zero on the slice. -/
theorem slice_bound (a b r : ℝ) (h0 : 0 ≤ a) (har : a ≤ r) (hrb : r ≤ b)
    (hb : b ≤ 44 / 100) (ha5 : a ^ 2 ≤ 3 / 5)
    (ha5' : (8660254 / 10 ^ 7 - b) ^ 2 ≤ 3 / 5)
    (hval : (3 / 5 - a ^ 2) ^ 4 * (14142136 / 10 ^ 7 * b)
          + (3 / 5 - (8660254 / 10 ^ 7 - b) ^ 2) ^ 4 *
              (14142136 / 10 ^ 7 * (86602541 / 10 ^ 8 - a)) ≤ 3 / 80) :
    Fenv r + Fenv (Real.sqrt 3 / 2 - r) ≤ 3 / 80 := by
  have hl3 : (8660254 / 10 ^ 7 : ℝ) ≤ Real.sqrt 3 / 2 := by
    have := sqrt3_lb; linarith
  have hu3 : Real.sqrt 3 / 2 ≤ (86602541 / 10 ^ 8 : ℝ) := by
    have := sqrt3_ub; linarith
  have h1 : Fenv r ≤ (3 / 5 - a ^ 2) ^ 4 * (14142136 / 10 ^ 7 * b) :=
    Fenv_box h0 har hrb ha5
  have h2 : Fenv (Real.sqrt 3 / 2 - r) ≤
      (3 / 5 - (8660254 / 10 ^ 7 - b) ^ 2) ^ 4 *
        (14142136 / 10 ^ 7 * (86602541 / 10 ^ 8 - a)) :=
    Fenv_box (show (0:ℝ) ≤ 8660254 / 10 ^ 7 - b by linarith)
      (by linarith) (by linarith) ha5'
  linarith

/-- Generic slice bound when the second term vanishes on the slice. -/
theorem slice_bound0 (a b r : ℝ) (h0 : 0 ≤ a) (har : a ≤ r) (hrb : r ≤ b)
    (hb : b ≤ 44 / 100) (ha5 : a ^ 2 ≤ 3 / 5)
    (hz : 3 / 5 ≤ (8660254 / 10 ^ 7 - b) ^ 2)
    (hval : (3 / 5 - a ^ 2) ^ 4 * (14142136 / 10 ^ 7 * b) ≤ 3 / 80) :
    Fenv r + Fenv (Real.sqrt 3 / 2 - r) ≤ 3 / 80 := by
  have hl3 : (8660254 / 10 ^ 7 : ℝ) ≤ Real.sqrt 3 / 2 := by
    have := sqrt3_lb; linarith
  have h1 : Fenv r ≤ (3 / 5 - a ^ 2) ^ 4 * (14142136 / 10 ^ 7 * b) :=
    Fenv_box h0 har hrb ha5
  have hrho : (8660254 / 10 ^ 7 - b : ℝ) ≤ Real.sqrt 3 / 2 - r := by linarith
  have hrho0 : (0:ℝ) ≤ 8660254 / 10 ^ 7 - b := by linarith
  have h2 : Fenv (Real.sqrt 3 / 2 - r) = 0 := by
    apply Fenv_tail
    calc (3/5 : ℝ) ≤ (8660254 / 10 ^ 7 - b) ^ 2 := hz
      _ ≤ (Real.sqrt 3 / 2 - r) ^ 2 := pow_le_pow_left₀ hrho0 hrho 2
  linarith

/-- Single-variable bound: for `r ∈ [0, √3/4]`,
`Fenv r + Fenv (√3/2 - r) ≤ 3/80` (19 certified slices). -/
theorem Gslice_all (r : ℝ) (h0 : 0 ≤ r) (hcap : r ≤ Real.sqrt 3 / 4) :
    Fenv r + Fenv (Real.sqrt 3 / 2 - r) ≤ 3 / 80 := by
  have hr433 : r ≤ (433012725 / 10 ^ 9 : ℝ) := by
    have := sqrt3_ub; linarith
  rcases le_or_lt r (9/100) with h1 | h1
  · exact slice_bound0 (0) (9/100) r (by norm_num) h0 h1
      (by norm_num) (by norm_num) (by norm_num) (by norm_num)
  rcases le_or_lt r (15/100) with h2 | h2
  · exact slice_bound (9/100) (15/100) r (by norm_num) h1.le h2
      (by norm_num) (by norm_num) (by norm_num) (by norm_num)
  rcases le_or_lt r (2/10) with h3 | h3
  · exact slice_bound (15/100) (2/10) r (by norm_num) h2.le h3
      (by norm_num) (by norm_num) (by norm_num) (by norm_num)
  rcases le_or_lt r (25/100) with h4 | h4
  · exact slice_bound (2/10) (25/100) r (by norm_num) h3.le h4
      (by norm_num) (by norm_num) (by norm_num) (by norm_num)
  rcases le_or_lt r (275/1000) with h5 | h5
  · exact slice_bound (25/100) (275/1000) r (by norm_num) h4.le h5
      (by norm_num) (by norm_num) (by norm_num) (by norm_num)
  rcases le_or_lt r (295/1000) with h6 | h6
  · exact slice_bound (275/1000) (295/1000) r (by norm_num) h5.le h6
      (by norm_num) (by norm_num) (by norm_num) (by norm_num)
  rcases le_or_lt r (315/1000) with h7 | h7
  · exact slice_bound (295/1000) (315/1000) r (by norm_num) h6.le h7
      (by norm_num) (by norm_num) (by norm_num) (by norm_num)
  rcases le_or_lt r (325/1000) with h8 | h8
  · exact slice_bound (315/1000) (325/1000) r (by norm_num) h7.le h8
      (by norm_num) (by norm_num) (by norm_num) (by norm_num)
  rcases le_or_lt r (335/1000) with h9 | h9
  · exact slice_bound (325/1000) (335/1000) r (by norm_num) h8.le h9
      (by norm_num) (by norm_num) (by norm_num) (by norm_num)
  rcases le_or_lt r (345/1000) with h10 | h10
  · exact slice_bound (335/1000) (345/1000) r (by norm_num) h9.le h10
      (by norm_num) (by norm_num) (by norm_num) (by norm_num)
  rcases le_or_lt r (355/1000) with h11 | h11
  · exact slice_bound (345/1000) (355/1000) r (by norm_num) h10.le h11
      (by norm_num) (by norm_num) (by norm_num) (by norm_num)
  rcases le_or_lt r (365/1000) with h12 | h12
  · exact slice_bound (355/1000) (365/1000) r (by norm_num) h11.le h12
      (by norm_num) (by norm_num) (by norm_num) (by norm_num)
  rcases le_or_lt r (375/1000) with h13 | h13
  · exact slice_bound (365/1000) (375/1000) r (by norm_num) h12.le h13
      (by norm_num) (by norm_num) (by norm_num) (by norm_num)
  rcases le_or_lt r (385/1000) with h14 | h14
  · exact slice_bound (375/1000) (385/1000) r (by norm_num) h13.le h14
      (by norm_num) (by norm_num) (by norm_num) (by norm_num)
  rcases le_or_lt r (395/1000) with h15 | h15
  · exact slice_bound (385/1000) (395/1000) r (by norm_num) h14.le h15
      (by norm_num) (by norm_num) (by norm_num) (by norm_num)
  rcases le_or_lt r (405/1000) with h16 | h16
  · exact slice_bound (395/1000) (405/1000) r (by norm_num) h15.le h16
      (by norm_num) (by norm_num) (by norm_num) (by norm_num)
  rcases le_or_lt r (415/1000) with h17 | h17
  · exact slice_bound (405/1000) (415/1000) r (by norm_num) h16.le h17
      (by norm_num) (by norm_num) (by norm_num) (by norm_num)
  rcases le_or_lt r (425/1000) with h18 | h18
  · exact slice_bound (415/1000) (425/1000) r (by norm_num) h17.le h18
      (by norm_num) (by norm_num) (by norm_num) (by norm_num)
  exact slice_bound (425/1000) (433012725/10^9) r (by norm_num) h18.le hr433
      (by norm_num) (by norm_num) (by norm_num) (by norm_num)

theorem pair_env_aux (r r' : ℝ) (h0 : 0 ≤ r) (hrr : r ≤ r')
    (hsum : Real.sqrt 3 / 2 ≤ r + r') : Fenv r + Fenv r' ≤ 3 / 80 := by
  have hlb : (2582 / 10 ^ 4 : ℝ) ≤ Real.sqrt 3 / 4 := by
    have := sqrt3_lb; linarith
  by_cases hc : Real.sqrt 3 / 4 ≤ r
  · have c1 : Fenv r ≤ Fenv (Real.sqrt 3 / 4) := Fenv_dec hlb hc
    have c2 : Fenv r' ≤ Fenv (Real.sqrt 3 / 4) := Fenv_dec hlb (hc.trans hrr)
    have := Fenv_cap
    linarith
  · push_neg at hc
    have h2 : Real.sqrt 3 / 2 - r ≤ r' := by linarith
    have h3 : (2582 / 10 ^ 4 : ℝ) ≤ Real.sqrt 3 / 2 - r := by
      have := sqrt3_lb; linarith
    have c2 : Fenv r' ≤ Fenv (Real.sqrt 3 / 2 - r) := Fenv_dec h3 h2
    have := Gslice_all r h0 hc.le
    linarith

/-- The main envelope estimate: two corners at distance at least `√3/2`
contribute at most `3/80` together. -/
theorem pair_env (r r' : ℝ) (h0 : 0 ≤ r) (h0' : 0 ≤ r')
    (hsum : Real.sqrt 3 / 2 ≤ r + r') : Fenv r + Fenv r' ≤ 3 / 80 := by
  rcases le_total r r' with h | h
  · exact pair_env_aux r r' h0 h hsum
  · have := pair_env_aux r' r h0' h (by linarith)
    linarith

set_option maxHeartbeats 1000000 in
theorem dot3_sq_le_of_mem (g : ℤ × ℤ × ℤ) (hg : g ∈ GRAD3) (dx dy dz : ℚ) :
    dot3 g dx dy dz ^ 2 ≤ 2 * (dx * dx + dy * dy + dz * dz) := by
  simp only [GRAD3, List.mem_cons, List.not_mem_nil, or_false] at hg
  rcases hg with rfl | rfl | rfl | rfl | rfl | rfl | rfl | rfl | rfl | rfl | rfl | rfl <;>
    · simp only [dot3]
      push_cast
      nlinarith [sq_nonneg (dx - dy), sq_nonneg (dx + dy), sq_nonneg (dy - dz),
        sq_nonneg (dy + dz), sq_nonneg (dx - dz), sq_nonneg (dx + dz),
        sq_nonneg dx, sq_nonneg dy, sq_nonneg dz]

theorem dot3_sq_le (gi : ℕ) (dx dy dz : ℚ) :
    dot3 (gradAt gi) dx dy dz ^ 2 ≤ 2 * (dx * dx + dy * dy + dz * dz) := by
  by_cases h : gi < GRAD3.length
  · exact dot3_sq_le_of_mem _ (by rw [gradAt, List.getD_eq_getElem _ _ h]; exact List.getElem_mem h) _ _ _
  · push_neg at h
    rw [gradAt, List.getD_eq_default _ _ h]
    simp only [dot3]
    push_cast
    nlinarith [sq_nonneg dx, sq_nonneg dy, sq_nonneg dz]

/-- Each corner contribution is dominated by the envelope at the distance
to that corner. -/
theorem corner_abs_le (gi : ℕ) (dx dy dz : ℚ) :
    |(corner gi dx dy dz : ℝ)| ≤
      Fenv (Real.sqrt ((dx * dx + dy * dy + dz * dz : ℚ) : ℝ)) := by
  have hq0 : (0:ℝ) ≤ ((dx * dx + dy * dy + dz * dz : ℚ) : ℝ) := by
    push_cast
    nlinarith [sq_nonneg dx, sq_nonneg dy, sq_nonneg dz]
  have hr2 : Real.sqrt ((dx * dx + dy * dy + dz * dz : ℚ) : ℝ) ^ 2 =
      ((dx * dx + dy * dy + dz * dz : ℚ) : ℝ) := Real.sq_sqrt hq0
  simp only [corner]
  split_ifs with h
  · have hT : (0:ℝ) ≤ ((3 / 5 - dx * dx - dy * dy - dz * dz : ℚ) : ℝ) :=
      Rat.cast_nonneg.mpr h
    have habs : |((((3 / 5 - dx * dx - dy * dy - dz * dz) *
          (3 / 5 - dx * dx - dy * dy - dz * dz)) *
          ((3 / 5 - dx * dx - dy * dy - dz * dz) *
          (3 / 5 - dx * dx - dy * dy - dz * dz)) *
          dot3 (gradAt gi) dx dy dz : ℚ) : ℝ)| =
        ((3 / 5 - dx * dx - dy * dy - dz * dz : ℚ) : ℝ) ^ 4 *
          |((dot3 (gradAt gi) dx dy dz : ℚ) : ℝ)| := by
      push_cast
      rw [abs_mul]
      rw [abs_of_nonneg (a := ((3:ℝ) / 5 - dx * dx - dy * dy - dz * dz) *
            (3 / 5 - dx * dx - dy * dy - dz * dz) *
            ((3 / 5 - dx * dx - dy * dy - dz * dz) *
            (3 / 5 - dx * dx - dy * dy - dz * dz))) (by push_cast at hT; nlinarith [hT])]
      ring
    have hdot : |((dot3 (gradAt gi) dx dy dz : ℚ) : ℝ)| ≤
        Real.sqrt 2 * Real.sqrt ((dx * dx + dy * dy + dz * dz : ℚ) : ℝ) := by
      have hsq : ((dot3 (gradAt gi) dx dy dz : ℚ) : ℝ) ^ 2 ≤
          2 * ((dx * dx + dy * dy + dz * dz : ℚ) : ℝ) := by
        exact_mod_cast dot3_sq_le gi dx dy dz
      calc |((dot3 (gradAt gi) dx dy dz : ℚ) : ℝ)|
          = Real.sqrt (((dot3 (gradAt gi) dx dy dz : ℚ) : ℝ) ^ 2) :=
            (Real.sqrt_sq_eq_abs _).symm
        _ ≤ Real.sqrt (2 * ((dx * dx + dy * dy + dz * dz : ℚ) : ℝ)) :=
            Real.sqrt_le_sqrt hsq
        _ = Real.sqrt 2 * Real.sqrt ((dx * dx + dy * dy + dz * dz : ℚ) : ℝ) :=
            Real.sqrt_mul (by norm_num) _
    rw [habs]
    unfold Fenv
    have hmax : max (3 / 5 - Real.sqrt ((dx * dx + dy * dy + dz * dz : ℚ) : ℝ) ^ 2) 0 =
        ((3 / 5 - dx * dx - dy * dy - dz * dz : ℚ) : ℝ) := by
      have hTc : (0:ℝ) ≤ ((3 / 5 - dx * dx - dy * dy - dz * dz : ℚ) : ℝ) :=
        Rat.cast_nonneg.mpr h
      have hTc' : (0:ℝ) ≤ 3 / 5 - ((dx * dx + dy * dy + dz * dz : ℚ) : ℝ) := by
        push_cast at hTc ⊢
        linarith
      rw [hr2, max_eq_left hTc']
      push_cast
      ring
    rw [hmax]
    exact mul_le_mul_of_nonneg_left hdot (by positivity)
  · simp only [Rat.cast_zero, abs_zero]
    exact Fenv_nonneg (Real.sqrt_nonneg _)

/-- Two corner contributions whose corners are `√3/2` apart (squared
distance `3/4`) together contribute at most `3/80` in absolute value. -/
theorem corner_pair_le (dx dy dz ux uy uz : ℚ)
    (hu : ux ^ 2 + uy ^ 2 + uz ^ 2 = 3 / 4) (ga gb : ℕ) :
    |corner ga dx dy dz| + |corner gb (dx - ux) (dy - uy) (dz - uz)| ≤ 3 / 80 := by
  have h1 := corner_abs_le ga dx dy dz
  have h2 := corner_abs_le gb (dx - ux) (dy - uy) (dz - uz)
  -- Cauchy-Schwarz for the inner product of the two corner offsets
  have hcs : (dx * (dx - ux) + dy * (dy - uy) + dz * (dz - uz)) ^ 2 ≤
      (dx * dx + dy * dy + dz * dz) *
      ((dx - ux) * (dx - ux) + (dy - uy) * (dy - uy) + (dz - uz) * (dz - uz)) := by
    nlinarith [sq_nonneg (dx * (dy - uy) - dy * (dx - ux)),
      sq_nonneg (dx * (dz - uz) - dz * (dx - ux)),
      sq_nonneg (dy * (dz - uz) - dz * (dy - uy))]
  have hq0 : (0:ℝ) ≤ ((dx * dx + dy * dy + dz * dz : ℚ) : ℝ) := by
    push_cast; nlinarith [sq_nonneg dx, sq_nonneg dy, sq_nonneg dz]
  have hq0' : (0:ℝ) ≤
      (((dx - ux) * (dx - ux) + (dy - uy) * (dy - uy) + (dz - uz) * (dz - uz) : ℚ) : ℝ) := by
    push_cast; nlinarith [sq_nonneg (dx - ux), sq_nonneg (dy - uy), sq_nonneg (dz - uz)]
  set r := Real.sqrt ((dx * dx + dy * dy + dz * dz : ℚ) : ℝ) with hrdef
  set r' := Real.sqrt
    (((dx - ux) * (dx - ux) + (dy - uy) * (dy - uy) + (dz - uz) * (dz - uz) : ℚ) : ℝ) with hrdef'
  have hr0 : 0 ≤ r := Real.sqrt_nonneg _
  have hr0' : 0 ≤ r' := Real.sqrt_nonneg _
  have hr2 : r ^ 2 = ((dx * dx + dy * dy + dz * dz : ℚ) : ℝ) := Real.sq_sqrt hq0
  have hr2' : r' ^ 2 =
      (((dx - ux) * (dx - ux) + (dy - uy) * (dy - uy) + (dz - uz) * (dz - uz) : ℚ) : ℝ) :=
    Real.sq_sqrt hq0'
  -- the inner product, as a real number
  have hinner : -(((dx * (dx - ux) + dy * (dy - uy) + dz * (dz - uz) : ℚ) : ℝ)) ≤ r * r' := by
    have hrr : r * r' = Real.sqrt (((dx * dx + dy * dy + dz * dz : ℚ) : ℝ) *
        (((dx - ux) * (dx - ux) + (dy - uy) * (dy - uy) + (dz - uz) * (dz - uz) : ℚ) : ℝ)) :=
      (Real.sqrt_mul hq0 _).symm
    have hcsR : (((dx * (dx - ux) + dy * (dy - uy) + dz * (dz - uz) : ℚ) : ℝ)) ^ 2 ≤
        ((dx * dx + dy * dy + dz * dz : ℚ) : ℝ) *
        (((dx - ux) * (dx - ux) + (dy - uy) * (dy - uy) + (dz - uz) * (dz - uz) : ℚ) : ℝ) := by
      exact_mod_cast hcs
    calc -(((dx * (dx - ux) + dy * (dy - uy) + dz * (dz - uz) : ℚ) : ℝ))
        ≤ |(((dx * (dx - ux) + dy * (dy - uy) + dz * (dz - uz) : ℚ) : ℝ))| := neg_le_abs _
      _ = Real.sqrt ((((dx * (dx - ux) + dy * (dy - uy) + dz * (dz - uz) : ℚ) : ℝ)) ^ 2) :=
          (Real.sqrt_sq_eq_abs _).symm
      _ ≤ Real.sqrt (((dx * dx + dy * dy + dz * dz : ℚ) : ℝ) *
            (((dx - ux) * (dx - ux) + (dy - uy) * (dy - uy) + (dz - uz) * (dz - uz) : ℚ) : ℝ)) :=
          Real.sqrt_le_sqrt hcsR
      _ = r * r' := hrr.symm
  -- squared distance between the corners is 3/4
  have hdist : ((dx * dx + dy * dy + dz * dz : ℚ) : ℝ) +
      (((dx - ux) * (dx - ux) + (dy - uy) * (dy - uy) + (dz - uz) * (dz - uz) : ℚ) : ℝ) -
      2 * (((dx * (dx - ux) + dy * (dy - uy) + dz * (dz - uz) : ℚ) : ℝ)) = 3 / 4 := by
    have huR : ((ux : ℝ)) ^ 2 + ((uy : ℝ)) ^ 2 + ((uz : ℝ)) ^ 2 = 3 / 4 := by
      have h' := congrArg (fun q : ℚ => (q : ℝ)) hu
      push_cast at h'
      linarith [h']
    push_cast
    linear_combination huR
  have hsumsq : 3 / 4 ≤ (r + r') ^ 2 := by nlinarith [hinner, hr2, hr2', hdist]
  have hsum : Real.sqrt 3 / 2 ≤ r + r' := by
    by_contra hcon
    push_neg at hcon
    have h3 : Real.sqrt 3 ^ 2 = 3 := Real.sq_sqrt (by norm_num)
    nlinarith [Real.sqrt_nonneg 3, hr0, hr0', hcon, hsumsq, h3]
  have henv := pair_env r r' hr0 hr0' hsum
  have hfin : |((corner ga dx dy dz : ℚ) : ℝ)| +
      |((corner gb (dx - ux) (dy - uy) (dz - uz) : ℚ) : ℝ)| ≤ 3 / 80 := by
    linarith
  have hq : ((|corner ga dx dy dz| + |corner gb (dx - ux) (dy - uy) (dz - uz)| : ℚ) : ℝ) ≤
      ((3 / 80 : ℚ) : ℝ) := by
    push_cast
    linarith [hfin]
  exact_mod_cast hq

/-- The ordering cascade returns one of six simplex configurations. -/
theorem branch_cases (x y z : ℚ) :
    branch x y z = ((1, 0, 0), (1, 1, 0)) ∨ branch x y z = ((1, 0, 0), (1, 0, 1)) ∨
    branch x y z = ((0, 0, 1), (1, 0, 1)) ∨ branch x y z = ((0, 0, 1), (0, 1, 1)) ∨
    branch x y z = ((0, 1, 0), (0, 1, 1)) ∨ branch x y z = ((0, 1, 0), (1, 1, 0)) := by
  unfold branch simplexOrder
  split_ifs <;> simp

/-- Corners 0 and 1 are `√3/2` apart, so their contributions sum to at
most `3/80` in absolute value. -/
theorem pair01_le (x y z : ℚ) : |n0q x y z| + |n1q x y z| ≤ 3 / 80 := by
  rcases branch_cases x y z with h | h | h | h | h | h <;>
    [skip; skip; skip; skip; skip; skip]
  · have e1 : x1q x y z = x0q x y z - (5/6 : ℚ) := by simp only [x1q, h]; push_cast; ring
    have e2 : y1q x y z = y0q x y z - (-(1/6) : ℚ) := by simp only [y1q, h]; push_cast; ring
    have e3 : z1q x y z = z0q x y z - (-(1/6) : ℚ) := by simp only [z1q, h]; push_cast; ring
    rw [n0q, n1q, e1, e2, e3]
    exact corner_pair_le _ _ _ _ _ _ (by norm_num) _ _
  · have e1 : x1q x y z = x0q x y z - (5/6 : ℚ) := by simp only [x1q, h]; push_cast; ring
    have e2 : y1q x y z = y0q x y z - (-(1/6) : ℚ) := by simp only [y1q, h]; push_cast; ring
    have e3 : z1q x y z = z0q x y z - (-(1/6) : ℚ) := by simp only [z1q, h]; push_cast; ring
    rw [n0q, n1q, e1, e2, e3]
    exact corner_pair_le _ _ _ _ _ _ (by norm_num) _ _
  · have e1 : x1q x y z = x0q x y z - (-(1/6) : ℚ) := by simp only [x1q, h]; push_cast; ring
    have e2 : y1q x y z = y0q x y z - (-(1/6) : ℚ) := by simp only [y1q, h]; push_cast; ring
    have e3 : z1q x y z = z0q x y z - (5/6 : ℚ) := by simp only [z1q, h]; push_cast; ring
    rw [n0q, n1q, e1, e2, e3]
    exact corner_pair_le _ _ _ _ _ _ (by norm_num) _ _
  · have e1 : x1q x y z = x0q x y z - (-(1/6) : ℚ) := by simp only [x1q, h]; push_cast; ring
    have e2 : y1q x y z = y0q x y z - (-(1/6) : ℚ) := by simp only [y1q, h]; push_cast; ring
    have e3 : z1q x y z = z0q x y z - (5/6 : ℚ) := by simp only [z1q, h]; push_cast; ring
    rw [n0q, n1q, e1, e2, e3]
    exact corner_pair_le _ _ _ _ _ _ (by norm_num) _ _
  · have e1 : x1q x y z = x0q x y z - (-(1/6) : ℚ) := by simp only [x1q, h]; push_cast; ring
    have e2 : y1q x y z = y0q x y z - (5/6 : ℚ) := by simp only [y1q, h]; push_cast; ring
    have e3 : z1q x y z = z0q x y z - (-(1/6) : ℚ) := by simp only [z1q, h]; push_cast; ring
    rw [n0q, n1q, e1, e2, e3]
    exact corner_pair_le _ _ _ _ _ _ (by norm_num) _ _
  · have e1 : x1q x y z = x0q x y z - (-(1/6) : ℚ) := by simp only [x1q, h]; push_cast; ring
    have e2 : y1q x y z = y0q x y z - (5/6 : ℚ) := by simp only [y1q, h]; push_cast; ring
    have e3 : z1q x y z = z0q x y z - (-(1/6) : ℚ) := by simp only [z1q, h]; push_cast; ring
    rw [n0q, n1q, e1, e2, e3]
    exact corner_pair_le _ _ _ _ _ _ (by norm_num) _ _

/-- Corners 2 and 3 are `√3/2` apart, so their contributions sum to at
most `3/80` in absolute value. -/
theorem pair23_le (x y z : ℚ) : |n2q x y z| + |n3q x y z| ≤ 3 / 80 := by
  rcases branch_cases x y z with h | h | h | h | h | h <;>
    [skip; skip; skip; skip; skip; skip]
  · have e1 : x3q x y z = x2q x y z - (-(1/6) : ℚ) := by
      simp only [x3q, x2q, h]; push_cast; ring
    have e2 : y3q x y z = y2q x y z - (-(1/6) : ℚ) := by
      simp only [y3q, y2q, h]; push_cast; ring
    have e3 : z3q x y z = z2q x y z - (5/6 : ℚ) := by
      simp only [z3q, z2q, h]; push_cast; ring
    rw [n2q, n3q, e1, e2, e3]
    exact corner_pair_le _ _ _ _ _ _ (by norm_num) _ _
  · have e1 : x3q x y z = x2q x y z - (-(1/6) : ℚ) := by
      simp only [x3q, x2q, h]; push_cast; ring
    have e2 : y3q x y z = y2q x y z - (5/6 : ℚ) := by
      simp only [y3q, y2q, h]; push_cast; ring
    have e3 : z3q x y z = z2q x y z - (-(1/6) : ℚ) := by
      simp only [z3q, z2q, h]; push_cast; ring
    rw [n2q, n3q, e1, e2, e3]
    exact corner_pair_le _ _ _ _ _ _ (by norm_num) _ _
  · have e1 : x3q x y z = x2q x y z - (-(1/6) : ℚ) := by
      simp only [x3q, x2q, h]; push_cast; ring
    have e2 : y3q x y z = y2q x y z - (5/6 : ℚ) := by
      simp only [y3q, y2q, h]; push_cast; ring
    have e3 : z3q x y z = z2q x y z - (-(1/6) : ℚ) := by
      simp only [z3q, z2q, h]; push_cast; ring
    rw [n2q, n3q, e1, e2, e3]
    exact corner_pair_le _ _ _ _ _ _ (by norm_num) _ _
  · have e1 : x3q x y z = x2q x y z - (5/6 : ℚ) := by
      simp only [x3q, x2q, h]; push_cast; ring
    have e2 : y3q x y z = y2q x y z - (-(1/6) : ℚ) := by
      simp only [y3q, y2q, h]; push_cast; ring
    have e3 : z3q x y z = z2q x y z - (-(1/6) : ℚ) := by
      simp only [z3q, z2q, h]; push_cast; ring
    rw [n2q, n3q, e1, e2, e3]
    exact corner_pair_le _ _ _ _ _ _ (by norm_num) _ _
  · have e1 : x3q x y z = x2q x y z - (5/6 : ℚ) := by
      simp only [x3q, x2q, h]; push_cast; ring
    have e2 : y3q x y z = y2q x y z - (-(1/6) : ℚ) := by
      simp only [y3q, y2q, h]; push_cast; ring
    have e3 : z3q x y z = z2q x y z - (-(1/6) : ℚ) := by
      simp only [z3q, z2q, h]; push_cast; ring
    rw [n2q, n3q, e1, e2, e3]
    exact corner_pair_le _ _ _ _ _ _ (by norm_num) _ _
  · have e1 : x3q x y z = x2q x y z - (-(1/6) : ℚ) := by
      simp only [x3q, x2q, h]; push_cast; ring
    have e2 : y3q x y z = y2q x y z - (-(1/6) : ℚ) := by
      simp only [y3q, y2q, h]; push_cast; ring
    have e3 : z3q x y z = z2q x y z - (5/6 : ℚ) := by
      simp only [z3q, z2q, h]; push_cast; ring
    rw [n2q, n3q, e1, e2, e3]
    exact corner_pair_le _ _ _ _ _ _ (by norm_num) _ _

/-- Certified global range bound for the embedded noise function:
`|simplex3 x y z| ≤ 12/5` for all rational inputs. -/
theorem simplex3_abs_le (x y z : ℚ) : |simplex3 x y z| ≤ 12 / 5 := by
  have h01 := pair01_le x y z
  have h23 := pair23_le x y z
  have key : |n0q x y z + n1q x y z + n2q x y z + n3q x y z| ≤ 3 / 40 := by
    have h := abs_add (n0q x y z + n1q x y z) (n2q x y z + n3q x y z)
    have h0 := abs_add (n0q x y z) (n1q x y z)
    have h2 := abs_add (n2q x y z) (n3q x y z)
    have e : n0q x y z + n1q x y z + n2q x y z + n3q x y z =
        n0q x y z + n1q x y z + (n2q x y z + n3q x y z) := by ring
    rw [e]
    linarith
  rw [simplex3, abs_mul, show |(32:ℚ)| = (32:ℚ) from by norm_num]
  linarith

/-! ## Concrete noise evaluations used by the claim theorems -/

/-- Concrete evaluation of the embedded noise function. -/
theorem eval_c3base : simplex3 (228/25 : ℚ) (226/25 : ℚ) (56346/25 : ℚ) = (6310729382774417/7415771484375000 : ℚ) := by
  have hS : skewS (228/25 : ℚ) (226/25 : ℚ) (56346/25 : ℚ) = (2272/3 : ℚ) := by
    simp only [skewS]; norm_num
  have hI : latI (228/25 : ℚ) (226/25 : ℚ) (56346/25 : ℚ) = (766 : ℤ) := by
    simp only [latI, hS]; norm_num
  have hJ : latJ (228/25 : ℚ) (226/25 : ℚ) (56346/25 : ℚ) = (766 : ℤ) := by
    simp only [latJ, hS]; norm_num
  have hK : latK (228/25 : ℚ) (226/25 : ℚ) (56346/25 : ℚ) = (3011 : ℤ) := by
    simp only [latK, hS]; norm_num
  have hT : unskewT (228/25 : ℚ) (226/25 : ℚ) (56346/25 : ℚ) = (4543/6 : ℚ) := by
    simp only [unskewT, hI, hJ, hK]; norm_num
  have hx0 : x0q (228/25 : ℚ) (226/25 : ℚ) (56346/25 : ℚ) = (43/150 : ℚ) := by
    simp only [x0q, hI, hT]; push_cast; norm_num
  have hy0 : y0q (228/25 : ℚ) (226/25 : ℚ) (56346/25 : ℚ) = (31/150 : ℚ) := by
    simp only [y0q, hJ, hT]; push_cast; norm_num
  have hz0 : z0q (228/25 : ℚ) (226/25 : ℚ) (56346/25 : ℚ) = (1/150 : ℚ) := by
    simp only [z0q, hK, hT]; push_cast; norm_num
  have hbr : branch (228/25 : ℚ) (226/25 : ℚ) (56346/25 : ℚ) = ((1, 0, 0), (1, 1, 0)) := by
    simp only [branch, hx0, hy0, hz0, simplexOrder]; norm_num
  have hii : iiq (228/25 : ℚ) (226/25 : ℚ) (56346/25 : ℚ) = 254 := by
    simp only [iiq, hI]; decide
  have hjj : jjq (228/25 : ℚ) (226/25 : ℚ) (56346/25 : ℚ) = 254 := by
    simp only [jjq, hJ]; decide
  have hkk : kkq (228/25 : ℚ) (226/25 : ℚ) (56346/25 : ℚ) = 195 := by
    simp only [kkq, hK]; decide
  have hg0 : gi0q (228/25 : ℚ) (226/25 : ℚ) (56346/25 : ℚ) = 0 := by
    simp only [gi0q, hii, hjj, hkk]; decide
  have hg1 : gi1q (228/25 : ℚ) (226/25 : ℚ) (56346/25 : ℚ) = 0 := by
    simp only [gi1q, hii, hjj, hkk, hbr]; decide
  have hg2 : gi2q (228/25 : ℚ) (226/25 : ℚ) (56346/25 : ℚ) = 9 := by
    simp only [gi2q, hii, hjj, hkk, hbr]; decide
  have hg3 : gi3q (228/25 : ℚ) (226/25 : ℚ) (56346/25 : ℚ) = 3 := by
    simp only [gi3q, hii, hjj, hkk]; decide
  have hx1 : x1q (228/25 : ℚ) (226/25 : ℚ) (56346/25 : ℚ) = (-41/75 : ℚ) := by
    simp only [x1q, hx0, hbr]; push_cast; norm_num
  have hy1 : y1q (228/25 : ℚ) (226/25 : ℚ) (56346/25 : ℚ) = (28/75 : ℚ) := by
    simp only [y1q, hy0, hbr]; push_cast; norm_num
  have hz1 : z1q (228/25 : ℚ) (226/25 : ℚ) (56346/25 : ℚ) = (13/75 : ℚ) := by
    simp only [z1q, hz0, hbr]; push_cast; norm_num
  have hx2 : x2q (228/25 : ℚ) (226/25 : ℚ) (56346/25 : ℚ) = (-19/50 : ℚ) := by
    simp only [x2q, hx0, hbr]; push_cast; norm_num
  have hy2 : y2q (228/25 : ℚ) (226/25 : ℚ) (56346/25 : ℚ) = (-23/50 : ℚ) := by
    simp only [y2q, hy0, hbr]; push_cast; norm_num
  have hz2 : z2q (228/25 : ℚ) (226/25 : ℚ) (56346/25 : ℚ) = (17/50 : ℚ) := by
    simp only [z2q, hz0, hbr]; push_cast; norm_num
  have hx3 : x3q (228/25 : ℚ) (226/25 : ℚ) (56346/25 : ℚ) = (-16/75 : ℚ) := by
    simp only [x3q, hx0]; push_cast; norm_num
  have hy3 : y3q (228/25 : ℚ) (226/25 : ℚ) (56346/25 : ℚ) = (-22/75 : ℚ) := by
    simp only [y3q, hy0]; push_cast; norm_num
  have hz3 : z3q (228/25 : ℚ) (226/25 : ℚ) (56346/25 : ℚ) = (-37/75 : ℚ) := by
    simp only [z3q, hz0]; push_cast; norm_num
  have hga0 : gradAt 0 = ((1 : ℤ), (1 : ℤ), (0 : ℤ)) := by decide
  have hn0 : n0q (228/25 : ℚ) (226/25 : ℚ) (56346/25 : ℚ) = (5963002802705557/237304687500000000 : ℚ) := by
    simp only [n0q, hg0, hx0, hy0, hz0, corner, dot3, hga0]
    norm_num
  have hga1 : gradAt 0 = ((1 : ℤ), (1 : ℤ), (0 : ℤ)) := by decide
  have hn1 : n1q (228/25 : ℚ) (226/25 : ℚ) (56346/25 : ℚ) = (-48387275053/926971435546875 : ℚ) := by
    simp only [n1q, hg1, hx1, hy1, hz1, corner, dot3, hga1]
    norm_num
  have hga2 : gradAt 9 = ((0 : ℤ), (-1 : ℤ), (1 : ℤ)) := by decide
  have hn2 : n2q (228/25 : ℚ) (226/25 : ℚ) (56346/25 : ℚ) = (10617447681/48828125000000 : ℚ) := by
    simp only [n2q, hg2, hx2, hy2, hz2, corner, dot3, hga2]
    norm_num
  have hga3 : gradAt 3 = ((-1 : ℤ), (-1 : ℤ), (0 : ℤ)) := by decide
  have hn3 : n3q (228/25 : ℚ) (226/25 : ℚ) (56346/25 : ℚ) = (1205128620128/926971435546875 : ℚ) := by
    simp only [n3q, hg3, hx3, hy3, hz3, corner, dot3, hga3]
    norm_num
  simp only [simplex3, hn0, hn1, hn2, hn3]
  norm_num

/-- Concrete evaluation of the embedded noise function. -/
theorem eval_c3turb : simplex3 (684/25 : ℚ) (678/25 : ℚ) (112692/25 : ℚ) = (13333978157833/15258789062500 : ℚ) := by
  have hS : skewS (684/25 : ℚ) (678/25 : ℚ) (112692/25 : ℚ) = (38018/25 : ℚ) := by
    simp only [skewS]; norm_num
  have hI : latI (684/25 : ℚ) (678/25 : ℚ) (112692/25 : ℚ) = (1548 : ℤ) := by
    simp only [latI, hS]; norm_num
  have hJ : latJ (684/25 : ℚ) (678/25 : ℚ) (112692/25 : ℚ) = (1547 : ℤ) := by
    simp only [latJ, hS]; norm_num
  have hK : latK (684/25 : ℚ) (678/25 : ℚ) (112692/25 : ℚ) = (6028 : ℤ) := by
    simp only [latK, hS]; norm_num
  have hT : unskewT (684/25 : ℚ) (678/25 : ℚ) (112692/25 : ℚ) = (3041/2 : ℚ) := by
    simp only [unskewT, hI, hJ, hK]; norm_num
  have hx0 : x0q (684/25 : ℚ) (678/25 : ℚ) (112692/25 : ℚ) = (-7/50 : ℚ) := by
    simp only [x0q, hI, hT]; push_cast; norm_num
  have hy0 : y0q (684/25 : ℚ) (678/25 : ℚ) (112692/25 : ℚ) = (31/50 : ℚ) := by
    simp only [y0q, hJ, hT]; push_cast; norm_num
  have hz0 : z0q (684/25 : ℚ) (678/25 : ℚ) (112692/25 : ℚ) = (9/50 : ℚ) := by
    simp only [z0q, hK, hT]; push_cast; norm_num
  have hbr : branch (684/25 : ℚ) (678/25 : ℚ) (112692/25 : ℚ) = ((0, 1, 0), (0, 1, 1)) := by
    simp only [branch, hx0, hy0, hz0, simplexOrder]; norm_num
  have hii : iiq (684/25 : ℚ) (678/25 : ℚ) (112692/25 : ℚ) = 12 := by
    simp only [iiq, hI]; decide
  have hjj : jjq (684/25 : ℚ) (678/25 : ℚ) (112692/25 : ℚ) = 11 := by
    simp only [jjq, hJ]; decide
  have hkk : kkq (684/25 : ℚ) (678/25 : ℚ) (112692/25 : ℚ) = 140 := by
    simp only [kkq, hK]; decide
  have hg0 : gi0q (684/25 : ℚ) (678/25 : ℚ) (112692/25 : ℚ) = 4 := by
    simp only [gi0q, hii, hjj, hkk]; decide
  have hg1 : gi1q (684/25 : ℚ) (678/25 : ℚ) (112692/25 : ℚ) = 9 := by
    simp only [gi1q, hii, hjj, hkk, hbr]; decide
  have hg2 : gi2q (684/25 : ℚ) (678/25 : ℚ) (112692/25 : ℚ) = 6 := by
    simp only [gi2q, hii, hjj, hkk, hbr]; decide
  have hg3 : gi3q (684/25 : ℚ) (678/25 : ℚ) (112692/25 : ℚ) = 7 := by
    simp only [gi3q, hii, hjj, hkk]; decide
  have hx1 : x1q (684/25 : ℚ) (678/25 : ℚ) (112692/25 : ℚ) = (2/75 : ℚ) := by
    simp only [x1q, hx0, hbr]; push_cast; norm_num
  have hy1 : y1q (684/25 : ℚ) (678/25 : ℚ) (112692/25 : ℚ) = (-16/75 : ℚ) := by
    simp only [y1q, hy0, hbr]; push_cast; norm_num
  have hz1 : z1q (684/25 : ℚ) (678/25 : ℚ) (112692/25 : ℚ) = (26/75 : ℚ) := by
    simp only [z1q, hz0, hbr]; push_cast; norm_num
  have hx2 : x2q (684/25 : ℚ) (678/25 : ℚ) (112692/25 : ℚ) = (29/150 : ℚ) := by
    simp only [x2q, hx0, hbr]; push_cast; norm_num
  have hy2 : y2q (684/25 : ℚ) (678/25 : ℚ) (112692/25 : ℚ) = (-7/150 : ℚ) := by
    simp only [y2q, hy0, hbr]; push_cast; norm_num
  have hz2 : z2q (684/25 : ℚ) (678/25 : ℚ) (112692/25 : ℚ) = (-73/150 : ℚ) := by
    simp only [z2q, hz0, hbr]; push_cast; norm_num
  have hx3 : x3q (684/25 : ℚ) (678/25 : ℚ) (112692/25 : ℚ) = (-16/25 : ℚ) := by
    simp only [x3q, hx0]; push_cast; norm_num
  have hy3 : y3q (684/25 : ℚ) (678/25 : ℚ) (112692/25 : ℚ) = (3/25 : ℚ) := by
    simp only [y3q, hy0]; push_cast; norm_num
  have hz3 : z3q (684/25 : ℚ) (678/25 : ℚ) (112692/25 : ℚ) = (-8/25 : ℚ) := by
    simp only [z3q, hz0]; push_cast; norm_num
  have hga0 : gradAt 4 = ((1 : ℤ), (0 : ℤ), (1 : ℤ)) := by decide
  have hn0 : n0q (684/25 : ℚ) (678/25 : ℚ) (112692/25 : ℚ) = (27982932961/976562500000000 : ℚ) := by
    simp only [n0q, hg0, hx0, hy0, hz0, corner, dot3, hga0]
    norm_num
  have hga1 : gradAt 9 = ((0 : ℤ), (-1 : ℤ), (1 : ℤ)) := by decide
  have hn1 : n1q (684/25 : ℚ) (678/25 : ℚ) (112692/25 : ℚ) = (75510126734/3814697265625 : ℚ) := by
    simp only [n1q, hg1, hx1, hy1, hz1, corner, dot3, hga1]
    norm_num
  have hga2 : gradAt 6 = ((1 : ℤ), (0 : ℤ), (-1 : ℤ)) := by decide
  have hn2 : n2q (684/25 : ℚ) (678/25 : ℚ) (112692/25 : ℚ) = (7281871449137/976562500000000 : ℚ) := by
    simp only [n2q, hg2, hx2, hy2, hz2, corner, dot3, hga2]
    norm_num
  have hga3 : gradAt 7 = ((-1 : ℤ), (0 : ℤ), (-1 : ℤ)) := by decide
  have hn3 : n3q (684/25 : ℚ) (678/25 : ℚ) (112692/25 : ℚ) = (107458944/3814697265625 : ℚ) := by
    simp only [n3q, hg3, hx3, hy3, hz3, corner, dot3, hga3]
    norm_num
  simp only [simplex3, hn0, hn1, hn2, hn3]
  norm_num

/-- Concrete evaluation of the embedded noise function. -/
theorem eval_c5base : simplex3 (0 : ℚ) (0 : ℚ) (9/10 : ℚ) = (0 : ℚ) := by
  have hS : skewS (0 : ℚ) (0 : ℚ) (9/10 : ℚ) = (3/10 : ℚ) := by
    simp only [skewS]; norm_num
  have hI : latI (0 : ℚ) (0 : ℚ) (9/10 : ℚ) = (0 : ℤ) := by
    simp only [latI, hS]; norm_num
  have hJ : latJ (0 : ℚ) (0 : ℚ) (9/10 : ℚ) = (0 : ℤ) := by
    simp only [latJ, hS]; norm_num
  have hK : latK (0 : ℚ) (0 : ℚ) (9/10 : ℚ) = (1 : ℤ) := by
    simp only [latK, hS]; norm_num
  have hT : unskewT (0 : ℚ) (0 : ℚ) (9/10 : ℚ) = (1/6 : ℚ) := by
    simp only [unskewT, hI, hJ, hK]; norm_num
  have hx0 : x0q (0 : ℚ) (0 : ℚ) (9/10 : ℚ) = (1/6 : ℚ) := by
    simp only [x0q, hI, hT]; push_cast; norm_num
  have hy0 : y0q (0 : ℚ) (0 : ℚ) (9/10 : ℚ) = (1/6 : ℚ) := by
    simp only [y0q, hJ, hT]; push_cast; norm_num
  have hz0 : z0q (0 : ℚ) (0 : ℚ) (9/10 : ℚ) = (1/15 : ℚ) := by
    simp only [z0q, hK, hT]; push_cast; norm_num
  have hbr : branch (0 : ℚ) (0 : ℚ) (9/10 : ℚ) = ((1, 0, 0), (1, 1, 0)) := by
    simp only [branch, hx0, hy0, hz0, simplexOrder]; norm_num
  have hii : iiq (0 : ℚ) (0 : ℚ) (9/10 : ℚ) = 0 := by
    simp only [iiq, hI]; decide
  have hjj : jjq (0 : ℚ) (0 : ℚ) (9/10 : ℚ) = 0 := by
    simp only [jjq, hJ]; decide
  have hkk : kkq (0 : ℚ) (0 : ℚ) (9/10 : ℚ) = 1 := by
    simp only [kkq, hK]; decide
  have hg0 : gi0q (0 : ℚ) (0 : ℚ) (9/10 : ℚ) = 2 := by
    simp only [gi0q, hii, hjj, hkk]; decide
  have hg1 : gi1q (0 : ℚ) (0 : ℚ) (9/10 : ℚ) = 8 := by
    simp only [gi1q, hii, hjj, hkk, hbr]; decide
  have hg2 : gi2q (0 : ℚ) (0 : ℚ) (9/10 : ℚ) = 3 := by
    simp only [gi2q, hii, hjj, hkk, hbr]; decide
  have hg3 : gi3q (0 : ℚ) (0 : ℚ) (9/10 : ℚ) = 2 := by
    simp only [gi3q, hii, hjj, hkk]; decide
  have hx1 : x1q (0 : ℚ) (0 : ℚ) (9/10 : ℚ) = (-2/3 : ℚ) := by
    simp only [x1q, hx0, hbr]; push_cast; norm_num
  have hy1 : y1q (0 : ℚ) (0 : ℚ) (9/10 : ℚ) = (1/3 : ℚ) := by
    simp only [y1q, hy0, hbr]; push_cast; norm_num
  have hz1 : z1q (0 : ℚ) (0 : ℚ) (9/10 : ℚ) = (7/30 : ℚ) := by
    simp only [z1q, hz0, hbr]; push_cast; norm_num
  have hx2 : x2q (0 : ℚ) (0 : ℚ) (9/10 : ℚ) = (-1/2 : ℚ) := by
    simp only [x2q, hx0, hbr]; push_cast; norm_num
  have hy2 : y2q (0 : ℚ) (0 : ℚ) (9/10 : ℚ) = (-1/2 : ℚ) := by
    simp only [y2q, hy0, hbr]; push_cast; norm_num
  have hz2 : z2q (0 : ℚ) (0 : ℚ) (9/10 : ℚ) = (2/5 : ℚ) := by
    simp only [z2q, hz0, hbr]; push_cast; norm_num
  have hx3 : x3q (0 : ℚ) (0 : ℚ) (9/10 : ℚ) = (-1/3 : ℚ) := by
    simp only [x3q, hx0]; push_cast; norm_num
  have hy3 : y3q (0 : ℚ) (0 : ℚ) (9/10 : ℚ) = (-1/3 : ℚ) := by
    simp only [y3q, hy0]; push_cast; norm_num
  have hz3 : z3q (0 : ℚ) (0 : ℚ) (9/10 : ℚ) = (-13/30 : ℚ) := by
    simp only [z3q, hz0]; push_cast; norm_num
  have hga0 : gradAt 2 = ((1 : ℤ), (-1 : ℤ), (0 : ℤ)) := by decide
  have hn0 : n0q (0 : ℚ) (0 : ℚ) (9/10 : ℚ) = (0 : ℚ) := by
    simp only [n0q, hg0, hx0, hy0, hz0, corner, dot3, hga0]
    norm_num
  have hga1 : gradAt 8 = ((0 : ℤ), (1 : ℤ), (1 : ℤ)) := by decide
  have hn1 : n1q (0 : ℚ) (0 : ℚ) (9/10 : ℚ) = (0 : ℚ) := by
    simp only [n1q, hg1, hx1, hy1, hz1, corner, dot3, hga1]
    norm_num
  have hga2 : gradAt 3 = ((-1 : ℤ), (-1 : ℤ), (0 : ℤ)) := by decide
  have hn2 : n2q (0 : ℚ) (0 : ℚ) (9/10 : ℚ) = (0 : ℚ) := by
    simp only [n2q, hg2, hx2, hy2, hz2, corner, dot3, hga2]
    norm_num
  have hga3 : gradAt 2 = ((1 : ℤ), (-1 : ℤ), (0 : ℤ)) := by decide
  have hn3 : n3q (0 : ℚ) (0 : ℚ) (9/10 : ℚ) = (0 : ℚ) := by
    simp only [n3q, hg3, hx3, hy3, hz3, corner, dot3, hga3]
    norm_num
  simp only [simplex3, hn0, hn1, hn2, hn3]
  norm_num

/-- Concrete evaluation of the embedded noise function. -/
theorem eval_c5turb : simplex3 (0 : ℚ) (0 : ℚ) (9/5 : ℚ) = (-25886129/46875000 : ℚ) := by
  have hS : skewS (0 : ℚ) (0 : ℚ) (9/5 : ℚ) = (3/5 : ℚ) := by
    simp only [skewS]; norm_num
  have hI : latI (0 : ℚ) (0 : ℚ) (9/5 : ℚ) = (0 : ℤ) := by
    simp only [latI, hS]; norm_num
  have hJ : latJ (0 : ℚ) (0 : ℚ) (9/5 : ℚ) = (0 : ℤ) := by
    simp only [latJ, hS]; norm_num
  have hK : latK (0 : ℚ) (0 : ℚ) (9/5 : ℚ) = (2 : ℤ) := by
    simp only [latK, hS]; norm_num
  have hT : unskewT (0 : ℚ) (0 : ℚ) (9/5 : ℚ) = (1/3 : ℚ) := by
    simp only [unskewT, hI, hJ, hK]; norm_num
  have hx0 : x0q (0 : ℚ) (0 : ℚ) (9/5 : ℚ) = (1/3 : ℚ) := by
    simp only [x0q, hI, hT]; push_cast; norm_num
  have hy0 : y0q (0 : ℚ) (0 : ℚ) (9/5 : ℚ) = (1/3 : ℚ) := by
    simp only [y0q, hJ, hT]; push_cast; norm_num
  have hz0 : z0q (0 : ℚ) (0 : ℚ) (9/5 : ℚ) = (2/15 : ℚ) := by
    simp only [z0q, hK, hT]; push_cast; norm_num
  have hbr : branch (0 : ℚ) (0 : ℚ) (9/5 : ℚ) = ((1, 0, 0), (1, 1, 0)) := by
    simp only [branch, hx0, hy0, hz0, simplexOrder]; norm_num
  have hii : iiq (0 : ℚ) (0 : ℚ) (9/5 : ℚ) = 0 := by
    simp only [iiq, hI]; decide
  have hjj : jjq (0 : ℚ) (0 : ℚ) (9/5 : ℚ) = 0 := by
    simp only [jjq, hJ]; decide
  have hkk : kkq (0 : ℚ) (0 : ℚ) (9/5 : ℚ) = 2 := by
    simp only [kkq, hK]; decide
  have hg0 : gi0q (0 : ℚ) (0 : ℚ) (9/5 : ℚ) = 11 := by
    simp only [gi0q, hii, hjj, hkk]; decide
  have hg1 : gi1q (0 : ℚ) (0 : ℚ) (9/5 : ℚ) = 11 := by
    simp only [gi1q, hii, hjj, hkk, hbr]; decide
  have hg2 : gi2q (0 : ℚ) (0 : ℚ) (9/5 : ℚ) = 2 := by
    simp only [gi2q, hii, hjj, hkk, hbr]; decide
  have hg3 : gi3q (0 : ℚ) (0 : ℚ) (9/5 : ℚ) = 0 := by
    simp only [gi3q, hii, hjj, hkk]; decide
  have hx1 : x1q (0 : ℚ) (0 : ℚ) (9/5 : ℚ) = (-1/2 : ℚ) := by
    simp only [x1q, hx0, hbr]; push_cast; norm_num
  have hy1 : y1q (0 : ℚ) (0 : ℚ) (9/5 : ℚ) = (1/2 : ℚ) := by
    simp only [y1q, hy0, hbr]; push_cast; norm_num
  have hz1 : z1q (0 : ℚ) (0 : ℚ) (9/5 : ℚ) = (3/10 : ℚ) := by
    simp only [z1q, hz0, hbr]; push_cast; norm_num
  have hx2 : x2q (0 : ℚ) (0 : ℚ) (9/5 : ℚ) = (-1/3 : ℚ) := by
    simp only [x2q, hx0, hbr]; push_cast; norm_num
  have hy2 : y2q (0 : ℚ) (0 : ℚ) (9/5 : ℚ) = (-1/3 : ℚ) := by
    simp only [y2q, hy0, hbr]; push_cast; norm_num
  have hz2 : z2q (0 : ℚ) (0 : ℚ) (9/5 : ℚ) = (7/15 : ℚ) := by
    simp only [z2q, hz0, hbr]; push_cast; norm_num
  have hx3 : x3q (0 : ℚ) (0 : ℚ) (9/5 : ℚ) = (-1/6 : ℚ) := by
    simp only [x3q, hx0]; push_cast; norm_num
  have hy3 : y3q (0 : ℚ) (0 : ℚ) (9/5 : ℚ) = (-1/6 : ℚ) := by
    simp only [y3q, hy0]; push_cast; norm_num
  have hz3 : z3q (0 : ℚ) (0 : ℚ) (9/5 : ℚ) = (-11/30 : ℚ) := by
    simp only [z3q, hz0]; push_cast; norm_num
  have hga0 : gradAt 11 = ((0 : ℤ), (-1 : ℤ), (-1 : ℤ)) := by decide
  have hn0 : n0q (0 : ℚ) (0 : ℚ) (9/5 : ℚ) = (-15309/1953125 : ℚ) := by
    simp only [n0q, hg0, hx0, hy0, hz0, corner, dot3, hga0]
    norm_num
  have hga1 : gradAt 11 = ((0 : ℤ), (-1 : ℤ), (-1 : ℤ)) := by decide
  have hn1 : n1q (0 : ℚ) (0 : ℚ) (9/5 : ℚ) = (-1/125000000 : ℚ) := by
    simp only [n1q, hg1, hx1, hy1, hz1, corner, dot3, hga1]
    norm_num
  have hga2 : gradAt 2 = ((1 : ℤ), (-1 : ℤ), (0 : ℤ)) := by decide
  have hn2 : n2q (0 : ℚ) (0 : ℚ) (9/5 : ℚ) = (0 : ℚ) := by
    simp only [n2q, hg2, hx2, hy2, hz2, corner, dot3, hga2]
    norm_num
  have hga3 : gradAt 0 = ((1 : ℤ), (1 : ℤ), (0 : ℤ)) := by decide
  have hn3 : n3q (0 : ℚ) (0 : ℚ) (9/5 : ℚ) = (-2825761/300000000 : ℚ) := by
    simp only [n3q, hg3, hx3, hy3, hz3, corner, dot3, hga3]
    norm_num
  simp only [simplex3, hn0, hn1, hn2, hn3]
  norm_num


/-! ## The frame renderer (`animate`, source lines 249-346)

The per-frame loop is modelled as a pure function of
(width, height, time, mouse position), producing the list of per-cell
records in the order the source's double loop paints them.  `time` is the
already-scaled time value `Date.now() * TIME_SPEED` (line 264); `(mx, my)`
is the mouse position read from `mouseRef` (lines 265-266), whose
pointer-absent sentinel is `(-9999, -9999)` (lines 231, 385-386).  The
only non-rational quantity of the loop body is the distance
`Math.sqrt(dx*dx + dy*dy)` (line 291), modelled with `Real.sqrt`; the
per-cell pipeline downstream of the distance is split into
`cellTraceAtDist` so that distance-monotonicity properties can be stated
directly. -/

/-- `DOT_SPACING` (line 187). -/
def DOT_SPACING : ℚ := 20

/-- `BASE_DOT_RADIUS = 1.2` (line 192). -/
def BASE_DOT_RADIUS : ℚ := 12 / 10

/-- `NOISE_SCALE = 0.004` (line 198). -/
def NOISE_SCALE : ℚ := 4 / 1000

/-- `MOUSE_INFLUENCE_RADIUS` (line 211). -/
def MOUSE_INFLUENCE_RADIUS : ℚ := 250

/-- All intermediate values of one iteration of the dot-grid loop body
(source lines 284-341), including an observation counter for the number
of `simplex3` calls the iteration performs. -/
structure CellTrace where
  xpos : ℚ
  ypos : ℚ
  dist : ℝ
  proximity : ℝ
  baseNoise : ℚ
  turbulence : ℝ
  noiseVal : ℝ
  brightness : ℝ
  baseAlpha : ℝ
  cursorBoost : ℝ
  alpha : ℝ
  radius : ℝ
  red : ℤ
  green : ℤ
  blue : ℤ
  noiseCalls : ℕ

/-- The loop body for the cell at screen position `(x, y)`, given the
current time and the distance from the cell to the mouse:
* `proximity = Math.max(0, 1 - dist / MOUSE_INFLUENCE_RADIUS)` (line 294);
* `baseNoise = simplex3(x*NOISE_SCALE, y*NOISE_SCALE, time)` (lines 300-304);
* `turbulence = proximity > 0 ? simplex3(x*NOISE_SCALE*3, y*NOISE_SCALE*3, time*2) * proximity * 0.6 : 0` (lines 307-314);
* `noiseVal = baseNoise + turbulence` (line 317);
* `brightness = (noiseVal + 1) * 0.5` (line 320);
* `baseAlpha = 0.08 + brightness * 0.27` (line 325);
* `cursorBoost = proximity * proximity * 0.6` (line 326);
* `alpha = Math.min(1, baseAlpha + cursorBoost)` (line 327);
* `radius = BASE_DOT_RADIUS + brightness * 0.8 + proximity * 2.5` (lines 329-330);
* `r = round(255)`, `g = round(255 - proximity*(255-61))`, `b = round(255 - proximity*255)` (lines 334-336). -/
noncomputable def cellTraceAtDist (x y t : ℚ) (dist : ℝ) : CellTrace :=
  let proximity : ℝ := max 0 (1 - dist / ((MOUSE_INFLUENCE_RADIUS : ℚ) : ℝ))
  let baseNoise : ℚ := simplex3 (x * NOISE_SCALE) (y * NOISE_SCALE) t
  let turbulence : ℝ :=
    if 0 < proximity then
      ((simplex3 (x * NOISE_SCALE * 3) (y * NOISE_SCALE * 3) (t * 2) : ℚ) : ℝ) *
        proximity * (6 / 10)
    else 0
  let noiseVal : ℝ := ((baseNoise : ℚ) : ℝ) + turbulence
  let brightness : ℝ := (noiseVal + 1) * (5 / 10)
  let baseAlpha : ℝ := 8 / 100 + brightness * (27 / 100)
  let cursorBoost : ℝ := proximity * proximity * (6 / 10)
  { xpos := x, ypos := y, dist := dist, proximity := proximity,
    baseNoise := baseNoise, turbulence := turbulence, noiseVal := noiseVal,
    brightness := brightness, baseAlpha := baseAlpha, cursorBoost := cursorBoost,
    alpha := min 1 (baseAlpha + cursorBoost),
    radius := ((BASE_DOT_RADIUS : ℚ) : ℝ) + brightness * (8 / 10) + proximity * (25 / 10),
    red := round (255 : ℝ),
    green := round ((255 : ℝ) - proximity * (255 - 61)),
    blue := round ((255 : ℝ) - proximity * 255),
    noiseCalls := 1 + (if 0 < proximity then 1 else 0) }

/-- One grid cell of a frame: `dx = x - mx`, `dy = y - my`,
`dist = Math.sqrt(dx*dx + dy*dy)` (lines 289-291), then the loop body. -/
noncomputable def cellTrace (x y t mx my : ℚ) : CellTrace :=
  cellTraceAtDist x y t
    (Real.sqrt (((x - mx) * (x - mx) + (y - my) * (y - my) : ℚ) : ℝ))

/-- `cols = Math.ceil(w / DOT_SPACING) + 1` (line 280). -/
def colsN (w : ℚ) : ℕ := (⌈w / DOT_SPACING⌉).toNat + 1

/-- `rows = Math.ceil(h / DOT_SPACING) + 1` (line 281). -/
def rowsN (h : ℚ) : ℕ := (⌈h / DOT_SPACING⌉).toNat + 1

/-- The row-major `(row, col)` index pairs of the double loop
(lines 283-284). -/
def cellIndices (w h : ℚ) : List (ℕ × ℕ) :=
  (List.range (rowsN h)).product (List.range (colsN w))

/-- The cell traces of one frame, in paint order; the cell at indices
`(row, col)` sits at `(col * DOT_SPACING, row * DOT_SPACING)`
(lines 285-286). -/
noncomputable def renderTraces (w h t mx my : ℚ) : List CellTrace :=
  (cellIndices w h).map fun rc =>
    cellTrace ((rc.2 : ℚ) * DOT_SPACING) ((rc.1 : ℚ) * DOT_SPACING) t mx my

/-- One filled-circle paint operation:
`ctx.arc(x, y, radius, 0, 2π)` + `ctx.fill()` with
`fillStyle = rgba(r, g, b, alpha)` (lines 338-341). -/
structure PaintOp where
  xpos : ℚ
  ypos : ℚ
  radius : ℝ
  red : ℤ
  green : ℤ
  blue : ℤ
  alpha : ℝ

/-- The paint operation emitted for one cell. -/
noncomputable def traceToOp (c : CellTrace) : PaintOp :=
  { xpos := c.xpos, ypos := c.ypos, radius := c.radius,
    red := c.red, green := c.green, blue := c.blue, alpha := c.alpha }

/-- `renderFrame` — the sequence of filled-circle paint operations of one
frame of `animate` (after the initial `clearRect`, line 269). -/
noncomputable def renderFrame (w h t mx my : ℚ) : List PaintOp :=
  (renderTraces w h t mx my).map traceToOp

/-! ### Projection lemmas for the per-cell pipeline -/

theorem ct_dist (x y t : ℚ) (d : ℝ) : (cellTraceAtDist x y t d).dist = d := by
  simp only [cellTraceAtDist]

theorem ct_xpos (x y t : ℚ) (d : ℝ) : (cellTraceAtDist x y t d).xpos = x := by
  simp only [cellTraceAtDist]

theorem ct_ypos (x y t : ℚ) (d : ℝ) : (cellTraceAtDist x y t d).ypos = y := by
  simp only [cellTraceAtDist]

theorem ct_proximity (x y t : ℚ) (d : ℝ) :
    (cellTraceAtDist x y t d).proximity = max 0 (1 - d / 250) := by
  simp only [cellTraceAtDist, MOUSE_INFLUENCE_RADIUS]
  norm_num

theorem ct_baseNoise (x y t : ℚ) (d : ℝ) :
    (cellTraceAtDist x y t d).baseNoise =
      simplex3 (x * NOISE_SCALE) (y * NOISE_SCALE) t := by
  simp only [cellTraceAtDist]

theorem ct_turbulence (x y t : ℚ) (d : ℝ) :
    (cellTraceAtDist x y t d).turbulence =
      if 0 < (cellTraceAtDist x y t d).proximity then
        ((simplex3 (x * NOISE_SCALE * 3) (y * NOISE_SCALE * 3) (t * 2) : ℚ) : ℝ) *
          (cellTraceAtDist x y t d).proximity * (6 / 10)
      else 0 := by
  simp only [cellTraceAtDist]

theorem ct_noiseVal (x y t : ℚ) (d : ℝ) :
    (cellTraceAtDist x y t d).noiseVal =
      (((cellTraceAtDist x y t d).baseNoise : ℚ) : ℝ) +
        (cellTraceAtDist x y t d).turbulence := by
  simp only [cellTraceAtDist]

theorem ct_brightness (x y t : ℚ) (d : ℝ) :
    (cellTraceAtDist x y t d).brightness =
      ((cellTraceAtDist x y t d).noiseVal + 1) * (5 / 10) := by
  simp only [cellTraceAtDist]

theorem ct_baseAlpha (x y t : ℚ) (d : ℝ) :
    (cellTraceAtDist x y t d).baseAlpha =
      8 / 100 + (cellTraceAtDist x y t d).brightness * (27 / 100) := by
  simp only [cellTraceAtDist]

theorem ct_cursorBoost (x y t : ℚ) (d : ℝ) :
    (cellTraceAtDist x y t d).cursorBoost =
      (cellTraceAtDist x y t d).proximity * (cellTraceAtDist x y t d).proximity *
        (6 / 10) := by
  simp only [cellTraceAtDist]

theorem ct_alpha (x y t : ℚ) (d : ℝ) :
    (cellTraceAtDist x y t d).alpha =
      min 1 ((cellTraceAtDist x y t d).baseAlpha +
        (cellTraceAtDist x y t d).cursorBoost) := by
  simp only [cellTraceAtDist]

theorem ct_radius (x y t : ℚ) (d : ℝ) :
    (cellTraceAtDist x y t d).radius =
      12 / 10 + (cellTraceAtDist x y t d).brightness * (8 / 10) +
        (cellTraceAtDist x y t d).proximity * (25 / 10) := by
  simp only [cellTraceAtDist, BASE_DOT_RADIUS]
  norm_num

theorem ct_red (x y t : ℚ) (d : ℝ) :
    (cellTraceAtDist x y t d).red = round (255 : ℝ) := by
  simp only [cellTraceAtDist]

theorem ct_green (x y t : ℚ) (d : ℝ) :
    (cellTraceAtDist x y t d).green =
      round ((255 : ℝ) - (cellTraceAtDist x y t d).proximity * (255 - 61)) := by
  simp only [cellTraceAtDist]

theorem ct_blue (x y t : ℚ) (d : ℝ) :
    (cellTraceAtDist x y t d).blue =
      round ((255 : ℝ) - (cellTraceAtDist x y t d).proximity * 255) := by
  simp only [cellTraceAtDist]

theorem ct_noiseCalls (x y t : ℚ) (d : ℝ) :
    (cellTraceAtDist x y t d).noiseCalls =
      1 + (if 0 < (cellTraceAtDist x y t d).proximity then 1 else 0) := by
  simp only [cellTraceAtDist]

/-! ### Basic facts about proximity -/

theorem proximity_nonneg (x y t : ℚ) (d : ℝ) :
    0 ≤ (cellTraceAtDist x y t d).proximity := by
  rw [ct_proximity]; exact le_max_left _ _

theorem proximity_le_one (x y t : ℚ) (d : ℝ) (hd : 0 ≤ d) :
    (cellTraceAtDist x y t d).proximity ≤ 1 := by
  rw [ct_proximity]
  have h : (0:ℝ) ≤ d / 250 := div_nonneg hd (by norm_num)
  exact max_le (by norm_num) (by linarith)

theorem proximity_eq_zero_of_far (x y t : ℚ) (d : ℝ) (hd : (250:ℝ) ≤ d) :
    (cellTraceAtDist x y t d).proximity = 0 := by
  rw [ct_proximity]
  have h : (1:ℝ) ≤ d / 250 := (le_div_iff (by norm_num)).mpr (by linarith)
  exact max_eq_left (by linarith)

theorem proximity_antitone (x y t : ℚ) (d1 d2 : ℝ) (h : d1 ≤ d2) :
    (cellTraceAtDist x y t d2).proximity ≤ (cellTraceAtDist x y t d1).proximity := by
  rw [ct_proximity, ct_proximity]
  have : d1 / 250 ≤ d2 / 250 := by linarith
  exact max_le_max (le_refl 0) (by linarith)

/-! ### Pipeline behaviour when the pointer is far away -/

theorem far_pipeline (x y t : ℚ) (d : ℝ) (hd : (250:ℝ) ≤ d) :
    (cellTraceAtDist x y t d).proximity = 0 ∧
    (cellTraceAtDist x y t d).turbulence = 0 ∧
    (cellTraceAtDist x y t d).noiseCalls = 1 ∧
    (cellTraceAtDist x y t d).cursorBoost = 0 ∧
    (cellTraceAtDist x y t d).noiseVal =
      ((simplex3 (x * NOISE_SCALE) (y * NOISE_SCALE) t : ℚ) : ℝ) ∧
    (cellTraceAtDist x y t d).alpha =
      min 1 (8 / 100 + (cellTraceAtDist x y t d).brightness * (27 / 100)) ∧
    (cellTraceAtDist x y t d).radius =
      12 / 10 + (cellTraceAtDist x y t d).brightness * (8 / 10) ∧
    (cellTraceAtDist x y t d).green = 255 ∧
    (cellTraceAtDist x y t d).blue = 255 := by
  have hp := proximity_eq_zero_of_far x y t d hd
  have hnlt : ¬ (0 < (cellTraceAtDist x y t d).proximity) := by rw [hp]; norm_num
  have hturb : (cellTraceAtDist x y t d).turbulence = 0 := by
    rw [ct_turbulence, if_neg hnlt]
  have h255 : round (255 : ℝ) = 255 := by rw [round_eq]; norm_num
  refine ⟨hp, hturb, ?_, ?_, ?_, ?_, ?_, ?_, ?_⟩
  · rw [ct_noiseCalls, if_neg hnlt]
  · rw [ct_cursorBoost, hp]; ring
  · rw [ct_noiseVal, hturb, ct_baseNoise]; ring
  · rw [ct_alpha, ct_baseAlpha, ct_cursorBoost, hp]; ring_nf
  · rw [ct_radius, hp]; ring
  · rw [ct_green, hp]
    rw [show (255:ℝ) - 0 * (255 - 61) = 255 by ring]
    exact h255
  · rw [ct_blue, hp]
    rw [show (255:ℝ) - 0 * 255 = 255 by ring]
    exact h255

/-! ### Global bounds on the per-cell noise pipeline -/

/-- The combined per-cell noise value is bounded by `1.6` times the
certified noise bound `12/5`, i.e. by `96/25 = 3.84`, and the brightness
stays within `48/25` of `1/2`. -/
theorem noiseVal_bound (x y t : ℚ) (d : ℝ) (hd : 0 ≤ d) :
    |(cellTraceAtDist x y t d).noiseVal| ≤ 96 / 25 ∧
    |(cellTraceAtDist x y t d).brightness - 1 / 2| ≤ 48 / 25 := by
  have hb := simplex3_abs_le (x * NOISE_SCALE) (y * NOISE_SCALE) t
  have hs := simplex3_abs_le (x * NOISE_SCALE * 3) (y * NOISE_SCALE * 3) (t * 2)
  have hbR : |((simplex3 (x * NOISE_SCALE) (y * NOISE_SCALE) t : ℚ) : ℝ)| ≤ 12 / 5 := by
    have h' := (Rat.cast_le (K := ℝ)).mpr hb
    push_cast at h'
    exact h'
  have hsR : |((simplex3 (x * NOISE_SCALE * 3) (y * NOISE_SCALE * 3) (t * 2) : ℚ) : ℝ)| ≤
      12 / 5 := by
    have h' := (Rat.cast_le (K := ℝ)).mpr hs
    push_cast at h'
    exact h'
  have hp0 := proximity_nonneg x y t d
  have hp1 := proximity_le_one x y t d hd
  have hturb : |(cellTraceAtDist x y t d).turbulence| ≤ 36 / 25 := by
    rw [ct_turbulence]
    split_ifs with h
    · rw [abs_mul, abs_mul]
      rw [abs_of_nonneg hp0, abs_of_nonneg (by norm_num : (0:ℝ) ≤ 6 / 10)]
      rcases abs_le.mp hsR with ⟨h1, h2⟩
      have hle : |((simplex3 (x * NOISE_SCALE * 3) (y * NOISE_SCALE * 3) (t * 2) : ℚ) : ℝ)| *
          (cellTraceAtDist x y t d).proximity ≤ 12 / 5 * 1 :=
        mul_le_mul hsR hp1 hp0 (by norm_num)
      nlinarith [abs_nonneg ((simplex3 (x * NOISE_SCALE * 3) (y * NOISE_SCALE * 3) (t * 2) : ℚ) : ℝ)]
    · norm_num
  have hnv : |(cellTraceAtDist x y t d).noiseVal| ≤ 96 / 25 := by
    rw [ct_noiseVal, ct_baseNoise]
    calc |((simplex3 (x * NOISE_SCALE) (y * NOISE_SCALE) t : ℚ) : ℝ) +
          (cellTraceAtDist x y t d).turbulence|
        ≤ |((simplex3 (x * NOISE_SCALE) (y * NOISE_SCALE) t : ℚ) : ℝ)| +
          |(cellTraceAtDist x y t d).turbulence| := abs_add _ _
      _ ≤ 96 / 25 := by linarith
  refine ⟨hnv, ?_⟩
  rw [ct_brightness]
  rcases abs_le.mp hnv with ⟨h1, h2⟩
  rw [abs_le]
  constructor <;> nlinarith

/-- Every painted dot has strictly positive radius. -/
theorem radius_pos (x y t : ℚ) (d : ℝ) (hd : 0 ≤ d) :
    0 < (cellTraceAtDist x y t d).radius := by
  have hnb := noiseVal_bound x y t d hd
  have hp0 := proximity_nonneg x y t d
  rcases abs_le.mp hnb.1 with ⟨h1, h2⟩
  rw [ct_radius, ct_brightness]
  nlinarith

/-- With the noise samples held fixed, the radius is monotone in the
proximity, hence antitone in the distance. -/
theorem radius_antitone (x y t : ℚ) (d1 d2 : ℝ) (h0 : 0 ≤ d1) (h12 : d1 ≤ d2) :
    (cellTraceAtDist x y t d2).radius ≤ (cellTraceAtDist x y t d1).radius := by
  have hs := simplex3_abs_le (x * NOISE_SCALE * 3) (y * NOISE_SCALE * 3) (t * 2)
  have hsR : |((simplex3 (x * NOISE_SCALE * 3) (y * NOISE_SCALE * 3) (t * 2) : ℚ) : ℝ)| ≤
      12 / 5 := by
    have h' := (Rat.cast_le (K := ℝ)).mpr hs
    push_cast at h'
    exact h'
  rcases abs_le.mp hsR with ⟨hs1, hs2⟩
  have hp := proximity_antitone x y t d1 d2 h12
  have hp0 := proximity_nonneg x y t d2
  have hp0' := proximity_nonneg x y t d1
  -- unfold the turbulence conditional into the product form, valid since
  -- the product vanishes at proximity 0
  have hturb : ∀ d : ℝ, (cellTraceAtDist x y t d).turbulence =
      ((simplex3 (x * NOISE_SCALE * 3) (y * NOISE_SCALE * 3) (t * 2) : ℚ) : ℝ) *
        (cellTraceAtDist x y t d).proximity * (6 / 10) := by
    intro d
    rw [ct_turbulence]
    split_ifs with h
    · rfl
    · push_neg at h
      have : (cellTraceAtDist x y t d).proximity = 0 :=
        le_antisymm h (proximity_nonneg x y t d)
      rw [this]; ring
  rw [ct_radius, ct_radius, ct_brightness, ct_brightness, ct_noiseVal, ct_noiseVal,
    ct_baseNoise, ct_baseNoise, hturb d1, hturb d2]
  have hmul := mul_le_mul_of_nonneg_right hp
    (show (0:ℝ) ≤ 25 / 10 + ((simplex3 (x * NOISE_SCALE * 3) (y * NOISE_SCALE * 3) (t * 2) : ℚ) : ℝ)
        * (6 / 10) * (5 / 10) * (8 / 10) from by nlinarith)
  nlinarith [hmul]

/-! ### Frame-level helpers -/

theorem cellTrace_eq (x y t mx my : ℚ) :
    cellTrace x y t mx my = cellTraceAtDist x y t
      (Real.sqrt (((x - mx) * (x - mx) + (y - my) * (y - my) : ℚ) : ℝ)) := rfl

theorem renderTraces_mem (w h t mx my : ℚ) (tr : CellTrace)
    (htr : tr ∈ renderTraces w h t mx my) :
    ∃ rc : ℕ × ℕ, rc ∈ cellIndices w h ∧
      tr = cellTrace ((rc.2 : ℚ) * DOT_SPACING) ((rc.1 : ℚ) * DOT_SPACING) t mx my := by
  rw [renderTraces] at htr
  obtain ⟨rc, hrc, heq⟩ := List.mem_map.mp htr
  exact ⟨rc, hrc, heq.symm⟩

/-- With the pointer-absent sentinel, every cell at nonnegative screen
coordinates is at distance at least 250 from the pointer. -/
theorem sentinel_dist (x y : ℚ) (hx : 0 ≤ x) (hy : 0 ≤ y) :
    (250:ℝ) ≤ Real.sqrt
      (((x - (-9999)) * (x - (-9999)) + (y - (-9999)) * (y - (-9999)) : ℚ) : ℝ) := by
  have hxR : (0:ℝ) ≤ (x : ℝ) := by exact_mod_cast hx
  have hyR : (0:ℝ) ≤ (y : ℝ) := by exact_mod_cast hy
  have harg : ((250:ℝ))^2 ≤
      (((x - (-9999)) * (x - (-9999)) + (y - (-9999)) * (y - (-9999)) : ℚ) : ℝ) := by
    push_cast
    nlinarith [mul_nonneg hxR hxR, mul_nonneg hyR hyR, hxR, hyR]
  calc (250:ℝ) = Real.sqrt ((250:ℝ)^2) := by rw [Real.sqrt_sq (by norm_num)]
    _ ≤ _ := Real.sqrt_le_sqrt harg

theorem renderFrame_length (w h t mx my : ℚ) :
    (renderFrame w h t mx my).length = rowsN h * colsN w := by
  rw [renderFrame, List.length_map, renderTraces, List.length_map, cellIndices]
  show ((List.range (rowsN h)) ×ˢ (List.range (colsN w))).length = _
  rw [List.length_product, List.length_range, List.length_range]

theorem colsN_zero : colsN 0 = 1 := by
  rw [colsN, DOT_SPACING]
  norm_num

theorem rowsN_zero : rowsN 0 = 1 := by
  rw [rowsN, DOT_SPACING]
  norm_num

theorem colsN_hundred : colsN 100 = 6 := by
  rw [colsN, DOT_SPACING, show ⌈(100:ℚ)/20⌉ = 5 from by norm_num]
  decide

theorem rowsN_hundred : rowsN 100 = 6 := by
  rw [rowsN, DOT_SPACING, show ⌈(100:ℚ)/20⌉ = 5 from by norm_num]
  decide

/-! ### Bounds on the hashing indices -/

theorem permAt_le (n : ℕ) : permAt n ≤ 255 := by
  rw [permAt]
  by_cases h : n < PERM.length
  · rw [List.getD_eq_getElem _ _ h]
    have hall : ∀ v ∈ PERM, v ≤ 255 := by decide
    exact hall _ (List.getElem_mem h)
  · push_neg at h
    rw [List.getD_eq_default _ _ h]
    norm_num

theorem iiq_lt (x y z : ℚ) : iiq x y z < 256 := by
  rw [iiq]
  have h1 : (0:ℤ) ≤ latI x y z % 256 := Int.emod_nonneg _ (by norm_num)
  have h2 : latI x y z % 256 < 256 := Int.emod_lt_of_pos _ (by norm_num)
  omega

theorem jjq_lt (x y z : ℚ) : jjq x y z < 256 := by
  rw [jjq]
  have h1 : (0:ℤ) ≤ latJ x y z % 256 := Int.emod_nonneg _ (by norm_num)
  have h2 : latJ x y z % 256 < 256 := Int.emod_lt_of_pos _ (by norm_num)
  omega

theorem kkq_lt (x y z : ℚ) : kkq x y z < 256 := by
  rw [kkq]
  have h1 : (0:ℤ) ≤ latK x y z % 256 := Int.emod_nonneg _ (by norm_num)
  have h2 : latK x y z % 256 < 256 := Int.emod_lt_of_pos _ (by norm_num)
  omega

theorem branch_comp_le (x y z : ℚ) :
    (branch x y z).1.1 ≤ 1 ∧ (branch x y z).1.2.1 ≤ 1 ∧ (branch x y z).1.2.2 ≤ 1 ∧
    (branch x y z).2.1 ≤ 1 ∧ (branch x y z).2.2.1 ≤ 1 ∧ (branch x y z).2.2.2 ≤ 1 := by
  rcases branch_cases x y z with h | h | h | h | h | h <;> rw [h] <;>
    exact ⟨by norm_num, by norm_num, by norm_num, by norm_num, by norm_num, by norm_num⟩

/-! ## Claim theorems -/

/-- Shared witness helper: the origin cell belongs to a 100x100 frame. -/
theorem origin_mem_traces (t mx my : ℚ) :
    cellTrace 0 0 t mx my ∈ renderTraces 100 100 t mx my := by
  rw [renderTraces]
  apply List.mem_map.mpr
  refine ⟨(0, 0), ?_, ?_⟩
  · rw [cellIndices, colsN_hundred, rowsN_hundred]
    decide
  · norm_num [DOT_SPACING]

/-- C2 (counterexample): `renderFrame` invoked with width 0 and height 0
performs exactly one paint operation, not zero: the loop bounds are
`ceil(0/20)+1 = 1` column and row, so one cell is painted. -/
theorem c2_counterexample :
    (renderFrame 0 0 0 0 0).length = 1 ∧ (renderFrame 0 0 0 0 0).length ≠ 0 := by
  have h : (renderFrame 0 0 0 0 0).length = 1 := by
    rw [renderFrame_length, colsN_zero, rowsN_zero]
  exact ⟨h, by rw [h]; norm_num⟩

/-- C2 (amended): for width = height = 0 the frame renderer paints
exactly one cell (not zero), and in general it always paints exactly
`(ceil(h/20)+1) * (ceil(w/20)+1)` cells; it never faults (it is a total
function), and the grid spacing is the fixed constant 20, never ≤ 0. -/
theorem c2_amended (t mx my : ℚ) :
    (renderFrame 0 0 t mx my).length = 1 ∧
    (∀ w h : ℚ, (renderFrame w h t mx my).length = rowsN h * colsN w) ∧
    DOT_SPACING = 20 := by
  refine ⟨?_, fun w h => renderFrame_length w h t mx my, rfl⟩
  rw [renderFrame_length, colsN_zero, rowsN_zero]

/-- C3 (counterexample): at the cell `(col, row) = (114, 113)` (screen
position `(2280, 2260)`), time `2253.84`, with the pointer exactly on the
cell (proximity 1), the combined noise value `base + turbulence` is
greater than 1 (about 1.375), and hence the brightness `(noise+1)/2`
exceeds 1 as well: the claimed range `[-1, 1]` fails for cells with
positive proximity. -/
theorem c3_counterexample :
    1 < (cellTrace 2280 2260 (56346/25) 2280 2260).noiseVal ∧
    1 < (cellTrace 2280 2260 (56346/25) 2280 2260).brightness := by
  have hb : simplex3 ((2280:ℚ) * NOISE_SCALE) ((2260:ℚ) * NOISE_SCALE) ((56346:ℚ)/25) =
      (6310729382774417/7415771484375000 : ℚ) := by
    rw [show (2280:ℚ) * NOISE_SCALE = (228/25 : ℚ) from by rw [NOISE_SCALE]; norm_num,
      show (2260:ℚ) * NOISE_SCALE = (226/25 : ℚ) from by rw [NOISE_SCALE]; norm_num]
    exact eval_c3base
  have hs : simplex3 ((2280:ℚ) * NOISE_SCALE * 3) ((2260:ℚ) * NOISE_SCALE * 3)
      ((56346:ℚ)/25 * 2) = (13333978157833/15258789062500 : ℚ) := by
    rw [show (2280:ℚ) * NOISE_SCALE * 3 = (684/25 : ℚ) from by rw [NOISE_SCALE]; norm_num,
      show (2260:ℚ) * NOISE_SCALE * 3 = (678/25 : ℚ) from by rw [NOISE_SCALE]; norm_num,
      show (56346:ℚ)/25 * 2 = (112692/25 : ℚ) from by norm_num]
    exact eval_c3turb
  have hdist : cellTrace 2280 2260 ((56346:ℚ)/25) 2280 2260 =
      cellTraceAtDist 2280 2260 ((56346:ℚ)/25) 0 := by
    rw [cellTrace_eq]
    norm_num [Real.sqrt_zero]
  have hp : (cellTraceAtDist 2280 2260 ((56346:ℚ)/25) (0:ℝ)).proximity = 1 := by
    rw [ct_proximity]
    norm_num
  constructor
  · rw [show ((56346:ℚ)/25) = (56346/25 : ℚ) from by norm_num] at hdist
    rw [hdist, ct_noiseVal, ct_turbulence, ct_baseNoise, hb, hs, hp,
      if_pos (by norm_num : (0:ℝ) < 1)]
    push_cast
    norm_num
  · rw [show ((56346:ℚ)/25) = (56346/25 : ℚ) from by norm_num] at hdist
    rw [hdist, ct_brightness, ct_noiseVal, ct_turbulence, ct_baseNoise, hb, hs, hp,
      if_pos (by norm_num : (0:ℝ) < 1)]
    push_cast
    norm_num

/-- C3 (amended): for every grid cell in every frame the combined noise
value lies in `[-96/25, 96/25]` (i.e. within 1.6 times the certified
noise bound 12/5), so the brightness lies within `48/25` of `1/2`; the
claimed `[-1, 1]` (and brightness `[0, 1]`) holds only up to these
bounds and is violated for some cells with positive proximity. -/
theorem c3_amended (w h t mx my : ℚ) :
    ∀ tr ∈ renderTraces w h t mx my,
      |tr.noiseVal| ≤ 96 / 25 ∧ |tr.brightness - 1 / 2| ≤ 48 / 25 := by
  intro tr htr
  obtain ⟨rc, hrc, rfl⟩ := renderTraces_mem w h t mx my tr htr
  rw [cellTrace_eq]
  exact noiseVal_bound _ _ _ _ (Real.sqrt_nonneg _)

/-- C3 (witness): the amended bound instantiated at a concrete cell of a
concrete frame. -/
theorem c3_witness :
    cellTrace 0 0 0 0 0 ∈ renderTraces 100 100 0 0 0 ∧
    (|(cellTrace 0 0 0 0 0).noiseVal| ≤ 96 / 25 ∧
     |(cellTrace 0 0 0 0 0).brightness - 1 / 2| ≤ 48 / 25) :=
  ⟨origin_mem_traces 0 0 0, c3_amended 100 100 0 0 0 _ (origin_mem_traces 0 0 0)⟩

/-- C4: with the pointer-absent sentinel `(-9999, -9999)`, every grid
cell has proximity exactly 0, the turbulence layer is never sampled
(exactly one noise call per cell), and the cursor contributes nothing to
alpha, radius, or colour (the colour stays white, `g = b = 255`). -/
theorem c4_pointer_absent (w h t : ℚ) :
    ∀ tr ∈ renderTraces w h t (-9999) (-9999),
      tr.proximity = 0 ∧ tr.turbulence = 0 ∧ tr.noiseCalls = 1 ∧
      tr.cursorBoost = 0 ∧
      tr.alpha = min 1 (8 / 100 + tr.brightness * (27 / 100)) ∧
      tr.radius = 12 / 10 + tr.brightness * (8 / 10) ∧
      tr.green = 255 ∧ tr.blue = 255 := by
  intro tr htr
  obtain ⟨rc, hrc, rfl⟩ := renderTraces_mem w h t (-9999) (-9999) tr htr
  rw [cellTrace_eq]
  have hx : (0:ℚ) ≤ (rc.2 : ℚ) * DOT_SPACING := by rw [DOT_SPACING]; positivity
  have hy : (0:ℚ) ≤ (rc.1 : ℚ) * DOT_SPACING := by rw [DOT_SPACING]; positivity
  have hd := sentinel_dist _ _ hx hy
  obtain ⟨h1, h2, h3, h4, _, h6, h7, h8, h9⟩ := far_pipeline _ _ t _ hd
  exact ⟨h1, h2, h3, h4, h6, h7, h8, h9⟩

/-- C4 (witness): the pointer-absent property instantiated at a concrete
cell of a concrete frame. -/
theorem c4_witness :
    cellTrace 0 0 0 (-9999) (-9999) ∈ renderTraces 100 100 0 (-9999) (-9999) ∧
    (cellTrace 0 0 0 (-9999) (-9999)).proximity = 0 ∧
    (cellTrace 0 0 0 (-9999) (-9999)).noiseCalls = 1 := by
  have hmem := origin_mem_traces 0 (-9999) (-9999)
  have h := c4_pointer_absent 100 100 0 _ hmem
  exact ⟨hmem, h.1, h.2.2.1⟩

/-- C5 (counterexample): alpha is not monotone in cursor distance.  At
the cell `(0, 0)` with time `0.9` (where the turbulence-layer sample is
negative, about `-0.552`), moving the pointer from distance 250 to
distance 249 strictly decreases alpha: the negative turbulence pulls the
brightness term down by more than the `proximity^2` boost adds. -/
theorem c5_counterexample :
    (cellTraceAtDist 0 0 (9/10) 249).alpha < (cellTraceAtDist 0 0 (9/10) 250).alpha := by
  have hb : simplex3 ((0:ℚ) * NOISE_SCALE) ((0:ℚ) * NOISE_SCALE) ((9:ℚ)/10) = 0 := by
    rw [show (0:ℚ) * NOISE_SCALE = (0:ℚ) from by ring]
    exact eval_c5base
  have hs : simplex3 ((0:ℚ) * NOISE_SCALE * 3) ((0:ℚ) * NOISE_SCALE * 3) ((9:ℚ)/10 * 2) =
      (-25886129/46875000 : ℚ) := by
    rw [show (0:ℚ) * NOISE_SCALE * 3 = (0:ℚ) from by ring,
      show (9:ℚ)/10 * 2 = (9/5 : ℚ) from by norm_num]
    exact eval_c5turb
  have hp2 : (cellTraceAtDist 0 0 ((9:ℚ)/10) (250:ℝ)).proximity = 0 :=
    proximity_eq_zero_of_far _ _ _ _ (by norm_num)
  have ha2 : (cellTraceAtDist 0 0 ((9:ℚ)/10) (250:ℝ)).alpha = 43/200 := by
    rw [ct_alpha, ct_baseAlpha, ct_cursorBoost, ct_brightness, ct_noiseVal, ct_turbulence,
      ct_baseNoise, hb, hp2, if_neg (lt_irrefl (0:ℝ))]
    norm_num [min_def]
  have hp1 : (cellTraceAtDist 0 0 ((9:ℚ)/10) (249:ℝ)).proximity = 1/250 := by
    rw [ct_proximity, show (1:ℝ) - 249/250 = 1/250 from by norm_num]
    exact max_eq_right (by norm_num)
  have ha1 : (cellTraceAtDist 0 0 ((9:ℚ)/10) (249:ℝ)).alpha =
      839182324517/3906250000000 := by
    rw [ct_alpha, ct_baseAlpha, ct_cursorBoost, ct_brightness, ct_noiseVal, ct_turbulence,
      ct_baseNoise, hb, hs, hp1, if_pos (by norm_num : (0:ℝ) < 1/250)]
    push_cast
    norm_num [min_def]
  rw [ha1, ha2]
  norm_num

/-- C5 (amended): holding the cell, time, and noise samples fixed, as
the distance to the pointer decreases the proximity is non-decreasing
and the radius is non-decreasing; alpha, however, need not be monotone
(see the counterexample), because a negative turbulence sample makes the
brightness term decrease faster than the quadratic cursor boost grows
near the influence boundary. -/
theorem c5_amended (x y t : ℚ) (d1 d2 : ℝ) (h0 : 0 ≤ d1) (h12 : d1 ≤ d2) :
    (cellTraceAtDist x y t d2).proximity ≤ (cellTraceAtDist x y t d1).proximity ∧
    (cellTraceAtDist x y t d2).radius ≤ (cellTraceAtDist x y t d1).radius :=
  ⟨proximity_antitone x y t d1 d2 h12, radius_antitone x y t d1 d2 h0 h12⟩

/-- C5 (witness): the amended monotonicity at concrete distances. -/
theorem c5_witness :
    (0:ℝ) ≤ 0 ∧ (0:ℝ) ≤ 1 ∧
    ((cellTraceAtDist 0 0 0 1).proximity ≤ (cellTraceAtDist 0 0 0 0).proximity ∧
     (cellTraceAtDist 0 0 0 1).radius ≤ (cellTraceAtDist 0 0 0 0).radius) :=
  ⟨le_refl 0, by norm_num, c5_amended 0 0 0 0 1 (le_refl 0) (by norm_num)⟩

/-- C6: the noise function and the frame renderer are deterministic pure
functions of their arguments (repeated calls with the same inputs give
identical results — in this embedding both are mathematical functions),
and the only state they read, the permutation table, is the fixed
doubled list constructed once. -/
theorem c6_determinism :
    (∀ x y z : ℚ, simplex3 x y z = simplex3 x y z) ∧
    (∀ w h t mx my : ℚ, renderFrame w h t mx my = renderFrame w h t mx my) ∧
    PERM = permBase ++ permBase :=
  ⟨fun _ _ _ => rfl, fun _ _ _ _ _ => rfl, rfl⟩

/-- C7: a full-field render of a 100x100 surface with spacing 20 and the
pointer absent paints exactly 36 cells — the `(row, col)` pairs with both
indices in `0..5` (since `ceil(100/20)+1 = 6`) — and every one of them
has proximity 0. -/
theorem c7_full_field (t : ℚ) :
    (renderFrame 100 100 t (-9999) (-9999)).length = 36 ∧
    cellIndices 100 100 =
      [(0, 0), (0, 1), (0, 2), (0, 3), (0, 4), (0, 5),
       (1, 0), (1, 1), (1, 2), (1, 3), (1, 4), (1, 5),
       (2, 0), (2, 1), (2, 2), (2, 3), (2, 4), (2, 5),
       (3, 0), (3, 1), (3, 2), (3, 3), (3, 4), (3, 5),
       (4, 0), (4, 1), (4, 2), (4, 3), (4, 4), (4, 5),
       (5, 0), (5, 1), (5, 2), (5, 3), (5, 4), (5, 5)] ∧
    ∀ tr ∈ renderTraces 100 100 t (-9999) (-9999), tr.proximity = 0 := by
  refine ⟨?_, ?_, ?_⟩
  · rw [renderFrame_length, colsN_hundred, rowsN_hundred]
  · rw [cellIndices, colsN_hundred, rowsN_hundred]
    decide
  · intro tr htr
    obtain ⟨rc, hrc, rfl⟩ := renderTraces_mem 100 100 t (-9999) (-9999) tr htr
    rw [cellTrace_eq]
    exact proximity_eq_zero_of_far _ _ _ _ (sentinel_dist _ _
      (by rw [DOT_SPACING]; positivity) (by rw [DOT_SPACING]; positivity))

/-- C7 (witness): the full-field render property instantiated at `t = 0`
and the origin cell. -/
theorem c7_witness :
    (renderFrame 100 100 0 (-9999) (-9999)).length = 36 ∧
    (cellTrace 0 0 0 (-9999) (-9999)).proximity = 0 :=
  ⟨(c7_full_field 0).1, (c7_full_field 0).2.2 _ (origin_mem_traces 0 (-9999) (-9999))⟩

/-- C8: the permutation table consists of 256 distinct integers, each at
most 255, covering all of `0..255`; it is doubled to the length-512 list
`PERM`, and (being a definition of this embedding, constructed once) it
never changes. -/
theorem c8_permutation_table :
    permBase.length = 256 ∧ permBase.Nodup ∧ (∀ v ∈ permBase, v ≤ 255) ∧
    (∀ n : ℕ, n < 256 → n ∈ permBase) ∧
    PERM = permBase ++ permBase ∧ PERM.length = 512 := by
  refine ⟨by decide, by decide, by decide, ?_, rfl, by decide⟩
  have h : ∀ m ∈ List.range 256, m ∈ permBase := by decide
  intro n hn
  exact h n (List.mem_range.mpr hn)

/-- C9: every table lookup inside `simplex3` is in bounds: for all
inputs, each of the twelve nested permutation-table indices is less than
512 (the doubled table length), and each of the four gradient indices is
less than 12, so no lookup ever returns the out-of-range default. -/
theorem c9_lookups_in_bounds (x y z : ℚ) :
    (kkq x y z < 512 ∧
     jjq x y z + permAt (kkq x y z) < 512 ∧
     iiq x y z + permAt (jjq x y z + permAt (kkq x y z)) < 512) ∧
    (kkq x y z + (branch x y z).1.2.2 < 512 ∧
     jjq x y z + (branch x y z).1.2.1 + permAt (kkq x y z + (branch x y z).1.2.2) < 512 ∧
     iiq x y z + (branch x y z).1.1 +
       permAt (jjq x y z + (branch x y z).1.2.1 +
         permAt (kkq x y z + (branch x y z).1.2.2)) < 512) ∧
    (kkq x y z + (branch x y z).2.2.2 < 512 ∧
     jjq x y z + (branch x y z).2.2.1 + permAt (kkq x y z + (branch x y z).2.2.2) < 512 ∧
     iiq x y z + (branch x y z).2.1 +
       permAt (jjq x y z + (branch x y z).2.2.1 +
         permAt (kkq x y z + (branch x y z).2.2.2)) < 512) ∧
    (kkq x y z + 1 < 512 ∧
     jjq x y z + 1 + permAt (kkq x y z + 1) < 512 ∧
     iiq x y z + 1 + permAt (jjq x y z + 1 + permAt (kkq x y z + 1)) < 512) ∧
    (gi0q x y z < 12 ∧ gi1q x y z < 12 ∧ gi2q x y z < 12 ∧ gi3q x y z < 12) := by
  have hii := iiq_lt x y z
  have hjj := jjq_lt x y z
  have hkk := kkq_lt x y z
  obtain ⟨b1, b2, b3, b4, b5, b6⟩ := branch_comp_le x y z
  have p1 := permAt_le (kkq x y z)
  have p2 := permAt_le (jjq x y z + permAt (kkq x y z))
  have p3 := permAt_le (kkq x y z + (branch x y z).1.2.2)
  have p4 := permAt_le (jjq x y z + (branch x y z).1.2.1 +
    permAt (kkq x y z + (branch x y z).1.2.2))
  have p5 := permAt_le (kkq x y z + (branch x y z).2.2.2)
  have p6 := permAt_le (jjq x y z + (branch x y z).2.2.1 +
    permAt (kkq x y z + (branch x y z).2.2.2))
  have p7 := permAt_le (kkq x y z + 1)
  have p8 := permAt_le (jjq x y z + 1 + permAt (kkq x y z + 1))
  refine ⟨⟨?_, ?_, ?_⟩, ⟨?_, ?_, ?_⟩, ⟨?_, ?_, ?_⟩, ⟨?_, ?_, ?_⟩, ?_, ?_, ?_, ?_⟩ <;>
    first
      | omega
      | exact Nat.mod_lt _ (by norm_num)

/-- C10: every filled-circle paint call of every frame has strictly
positive radius: even at the lowest brightness reachable with the
certified noise bounds, `radius = 1.2 + brightness*0.8 + proximity*2.5`
stays positive. -/
theorem c10_radius_positive (w h t mx my : ℚ) :
    ∀ tr ∈ renderTraces w h t mx my, 0 < tr.radius := by
  intro tr htr
  obtain ⟨rc, hrc, rfl⟩ := renderTraces_mem w h t mx my tr htr
  rw [cellTrace_eq]
  exact radius_pos _ _ _ _ (Real.sqrt_nonneg _)

/-- C10 (witness): positivity of the radius at a concrete cell of a
concrete frame. -/
theorem c10_witness :
    cellTrace 0 0 0 0 0 ∈ renderTraces 100 100 0 0 0 ∧
    0 < (cellTrace 0 0 0 0 0).radius :=
  ⟨origin_mem_traces 0 0 0, c10_radius_positive 100 100 0 0 0 _ (origin_mem_traces 0 0 0)⟩

end HeroCanvas
